import Mathlib

/-!
Verification of the `aiodrf` asynchronous REST-framework shim.

Each Python function relevant to the frozen claims is shallowly embedded as an
executable Lean definition, translated from the repository source
(`aiodrf/paginations.py`, `aiodrf/serializers.py`, `aiodrf/serializers_jsonapi.py`,
`aiodrf/viewsets.py`, `aiodrf/mixins.py`).  Machine integers are modelled as
`Nat`/`Int`, Python exceptions as `Except`, Python truthiness explicitly.
-/

namespace Aiodrf

/-- Python exceptions that the embedded fragments can raise. -/
inductive PyErr where
  | typeError
  | valueError
  | keyError
  | nameError
  | attributeError
  | notFound
  | recursionError
  | indexError
  deriving DecidableEq, Repr

/-- Python `list.insert(i, x)` for an index `0 ≤ i ≤ len` (the only way the
embedded code uses it): insert `x` so that it ends up at position `i`. -/
def insertPy {α : Type} (i : Nat) (x : α) (l : List α) : List α :=
  l.take i ++ x :: l.drop i

/-- The candidate page numbers collected into the Python set `included` in
`_get_displayed_page_numbers` (paginations.py lines 36-43), for the branch
`final > 5`.  The set is `{1, current - 1, current, current + 1, final}`,
plus `{2, 3}` when `current <= 4`, plus `{final - 1, final - 2}` when
`current >= final - 3`. -/
def displayedCandidates (current final : Nat) : List Nat :=
  [1, current - 1, current, current + 1, final]
    ++ (if current ≤ 4 then [2, 3] else [])
    ++ (if final ≤ current + 3 then [final - 1, final - 2] else [])

/-- The sorted, deduplicated and range-filtered list
`[idx for idx in sorted(included) if 0 < idx <= final]`
(paginations.py lines 45-48): enumerating `1..final` in order and keeping the
members of the candidate set yields exactly that list. -/
def sortedIncluded (current final : Nat) : List Nat :=
  (List.range' 1 final).filter (fun i => decide (i ∈ displayedCandidates current final))

/-- `_get_displayed_page_numbers(current, final)` (paginations.py lines 30-54).
The Python function asserts `current >= 1` and `final >= current`; `None`
break markers are modelled by `Option.none`. -/
def _get_displayed_page_numbers (current final : Nat) : List (Option Nat) :=
  if final ≤ 5 then
    (List.range' 1 final).map some
  else
    let included := (sortedIncluded current final).map some
    let included := if 4 < current then insertPy 1 none included else included
    if current < final - 3 then insertPy (included.length - 1) none included else included

/-- Accumulate decimal digits; `none` on a non-digit character. -/
def digitsVal (l : List Char) : Option Nat :=
  l.foldl
    (fun acc c =>
      match acc with
      | none => none
      | some n => if c.isDigit then some (n * 10 + (c.toNat - 48)) else none)
    (some 0)

/-- Python `int(s)`: parse an optionally signed decimal string, `ValueError`
(here: `none`) when it is not a valid integer literal. -/
def pyInt (s : String) : Option Int :=
  match s.data with
  | [] => none
  | c :: rest =>
    if c = '-' then
      if rest.isEmpty then none else (digitsVal rest).map (fun n => -(n : Int))
    else if c = '+' then
      if rest.isEmpty then none else (digitsVal rest).map (fun n => (n : Int))
    else (digitsVal (c :: rest)).map (fun n => (n : Int))

/-- Python `str.startswith(p)`: the characters of `p` are a prefix of the
characters of `s` (executable model of the string primitive). -/
def pyStartsWith (s p : String) : Bool := p.data.isPrefixOf s.data

/-- Python `str.endswith(p)`: the characters of `p` are a suffix of the
characters of `s` (executable model of the string primitive). -/
def pyEndsWith (s p : String) : Bool := p.data.reverse.isPrefixOf s.data.reverse

/-- `_positive_int(integer_string, strict=False, cutoff=None)` (paginations.py
lines 73-79): `int()` raises `ValueError` on a non-numeric string; then raise
`ValueError` when `ret < 0` or (`ret == 0` and `strict`); apply the cutoff
with `min` only when `cutoff` is truthy (`if cutoff:`, so `None` and `0` skip
it). -/
def _positive_int (integer_string : String) (strict : Bool) (cutoff : Option Int) :
    Except PyErr Int :=
  match pyInt integer_string with
  | none => Except.error PyErr.valueError
  | some ret =>
    if ret < 0 ∨ (ret = 0 ∧ strict) then
      Except.error PyErr.valueError
    else
      match cutoff with
      | none => Except.ok ret
      | some c => if c ≠ 0 then Except.ok (min ret c) else Except.ok ret

/-- Lookup of `request.query_params[key]`: `none` models a `KeyError`. -/
def lookupParam (query_params : List (String × String)) (key : String) : Option String :=
  (query_params.find? (fun p => p.1 = key)).map (fun p => p.2)

/-! ### C8: `LimitOffsetAsyncPagination.get_limit` (paginations.py 250-258) -/

/-- The attributes of `LimitOffsetAsyncPagination` relevant to `get_limit`
(inherited from the host framework's `LimitOffsetPagination`):
`limit_query_param` (default `"limit"`), `default_limit`
(default `api_settings.PAGE_SIZE`), `max_limit` (default `None`). -/
structure LimitOffsetPaginationState where
  limit_query_param : String
  default_limit : Option Int
  max_limit : Option Int

/-- Entering the context manager `sync_to_async(contextlib.suppress)(KeyError,
ValueError)` (paginations.py line 252): `sync_to_async` wraps
`contextlib.suppress`, so the call produces a coroutine object rather than a
`suppress` instance; a coroutine does not implement `__enter__`, so the
`with` statement raises `TypeError` instead of entering the block. -/
def withEnterCoroutineSuppress : Except PyErr Unit := Except.error PyErr.typeError

/-- `LimitOffsetAsyncPagination.get_limit(request)` (paginations.py 250-258):
when `self.limit_query_param` is truthy, the method evaluates the broken
`with` statement (which raises `TypeError`); the suppressed-exception body it
was meant to run is transcribed in the (unreachable) success branch. -/
def get_limit (self : LimitOffsetPaginationState) (query_params : List (String × String)) :
    Except PyErr (Option Int) :=
  if self.limit_query_param ≠ "" then
    match withEnterCoroutineSuppress with
    | Except.error e => Except.error e
    | Except.ok _ =>
      match lookupParam query_params self.limit_query_param with
      | none => Except.ok self.default_limit
      | some s =>
        match _positive_int s true self.max_limit with
        | Except.ok v => Except.ok (some v)
        | Except.error _ => Except.ok self.default_limit
  else Except.ok self.default_limit

/-- The host framework's synchronous `LimitOffsetPagination.get_limit`, which
the spec says the async class reimplements: the same computation but with a
working `try/except (KeyError, ValueError)` around `_positive_int`. -/
def drf_get_limit (self : LimitOffsetPaginationState)
    (query_params : List (String × String)) : Option Int :=
  if self.limit_query_param ≠ "" then
    match lookupParam query_params self.limit_query_param with
    | none => self.default_limit
    | some s =>
      match _positive_int s true self.max_limit with
      | Except.ok v => some v
      | Except.error _ => self.default_limit
  else self.default_limit

/-- A `LimitOffsetAsyncPagination` instance with the host framework's default
attributes (`limit_query_param = "limit"`) and a concrete page-size setting. -/
def stdLimitOffset : LimitOffsetPaginationState :=
  { limit_query_param := "limit", default_limit := some 10, max_limit := some 100 }

/-! ### C2: `PageNumberAsyncPagination` (paginations.py 82-139) -/

/-- The attributes of `PageNumberAsyncPagination` relevant to the claim
(inherited from the host framework's `PageNumberPagination`). -/
structure PageNumberPaginationState where
  page_size : Option Int
  page_query_param : String
  page_size_query_param : String
  max_page_size : Option Int
  last_page_strings : List String

/-- A request: query parameters plus the value of `build_absolute_uri()`. -/
structure Request where
  query_params : List (String × String)
  absolute_uri : String

/-- The host framework's synchronous `PageNumberPagination.get_page_size
(self, request)`: parse the page-size query parameter with
`_positive_int(strict=True, cutoff=max_page_size)`, falling back to
`self.page_size` on `KeyError`/`ValueError` or when no query parameter is
configured. -/
def drf_get_page_size (self : PageNumberPaginationState) (request : Request) :
    Option Int :=
  if self.page_size_query_param ≠ "" then
    match lookupParam request.query_params self.page_size_query_param with
    | none => self.page_size
    | some s =>
      match _positive_int s true self.max_page_size with
      | Except.ok v => some v
      | Except.error _ => self.page_size
  else self.page_size

/-- A positional argument of the call at paginations.py line 123. -/
inductive PyArg where
  | paginator (p : PageNumberPaginationState)
  | request (r : Request)

/-- The bound method `super().get_page_size` called with an explicit
positional-argument list: being bound, it accepts exactly one positional
argument (`request`); any other arity raises
`TypeError: get_page_size() takes 2 positional arguments but 3 were given`. -/
def boundSuperGetPageSize (self : PageNumberPaginationState) (args : List PyArg) :
    Except PyErr (Option Int) :=
  match args with
  | [PyArg.request r] => Except.ok (drf_get_page_size self r)
  | _ => Except.error PyErr.typeError

/-- `PageNumberAsyncPagination.get_page_size(request)` (paginations.py
122-123): `await sync_to_async(super().get_page_size)(self, request)` — the
bound super method is invoked with the extra positional argument `self`. -/
def async_get_page_size (self : PageNumberPaginationState) (request : Request) :
    Except PyErr (Option Int) :=
  boundSuperGetPageSize self [PyArg.paginator self, PyArg.request request]

/-- A Django paginator `Page` as used by the code: `has_next()`,
`has_previous()`, `next_page_number()`, `previous_page_number()` are plain
synchronous methods returning a bool or an int, and `object_list` the items
(modelled by their ids). -/
structure DjangoPage where
  object_list : List Int
  number : Int
  has_next : Bool
  has_previous : Bool
  next_page_number : Int
  previous_page_number : Int

/-- Python `await` applied to a value that is not awaitable (a plain `bool`
or `int` returned by the synchronous `Page` methods) raises
`TypeError: object ... can't be used in 'await' expression`. -/
def awaitPlain {α : Type} (_ : α) : Except PyErr α := Except.error PyErr.typeError

/-- `PageNumberAsyncPagination.get_next_link` (paginations.py 125-130):
`if not await self.page.has_next()` awaits the plain bool returned by
`self.page.has_next()`, and `await self.page.next_page_number()` awaits a
plain int.  `rqp` models the host framework's `replace_query_param`. -/
def async_get_next_link (self : PageNumberPaginationState) (page : DjangoPage)
    (url : String) (rqp : String → String → String → String) :
    Except PyErr (Option String) := do
  let hn ← awaitPlain page.has_next
  if ¬ hn then
    return none
  let n ← awaitPlain page.next_page_number
  return some (rqp url self.page_query_param (toString n))

/-- `PageNumberAsyncPagination.get_previous_link` (paginations.py 132-139),
with the same non-awaitable awaits; `rmq` models `remove_query_param`. -/
def async_get_previous_link (self : PageNumberPaginationState) (page : DjangoPage)
    (url : String) (rqp : String → String → String → String)
    (rmq : String → String → String) : Except PyErr (Option String) := do
  let hp ← awaitPlain page.has_previous
  if ¬ hp then
    return none
  let n ← awaitPlain page.previous_page_number
  if n = 1 then
    return some (rmq url self.page_query_param)
  return some (rqp url self.page_query_param (toString n))

/-- The host framework's synchronous `PageNumberPagination.get_next_link`,
which the spec says the async method reimplements. -/
def drf_get_next_link (self : PageNumberPaginationState) (page : DjangoPage)
    (url : String) (rqp : String → String → String → String) : Option String :=
  if ¬ page.has_next then none
  else some (rqp url self.page_query_param (toString page.next_page_number))

/-- The host framework's synchronous `PageNumberPagination.get_previous_link`. -/
def drf_get_previous_link (self : PageNumberPaginationState) (page : DjangoPage)
    (url : String) (rqp : String → String → String → String)
    (rmq : String → String → String) : Option String :=
  if ¬ page.has_previous then none
  else if page.previous_page_number = 1 then some (rmq url self.page_query_param)
  else some (rqp url self.page_query_param (toString page.previous_page_number))

/-- A Django `Paginator`: `num_pages` plus `page(number)`, which raises
`InvalidPage` (modelled as `none`) for an invalid page number. -/
structure DjangoPaginator where
  num_pages : Int
  pageAt : String → Option DjangoPage

/-- `PageNumberAsyncPagination.get_page_number` (paginations.py 105-109):
the raw query parameter (`or 1` on a missing/falsy value), replaced by
`paginator.num_pages` when it is one of `last_page_strings`. -/
def get_page_number (self : PageNumberPaginationState) (request : Request)
    (paginator : DjangoPaginator) : String :=
  let raw := lookupParam request.query_params self.page_query_param
  let pn := match raw with
    | none => "1"
    | some s => if s = "" then "1" else s
  if pn ∈ self.last_page_strings then toString paginator.num_pages else pn

/-- `PageNumberAsyncPagination.paginate_queryset` (paginations.py 83-103):
`page_size = await self.get_page_size(request)` (whose call is broken, see
`async_get_page_size`), `return None` on a falsy page size, then
`paginator.page(page_number)` with `InvalidPage` re-raised as `NotFound`.
`mkPaginator` models `self.django_paginator_class(queryset, page_size)`. -/
def async_paginate_queryset (self : PageNumberPaginationState)
    (mkPaginator : List Int → Int → DjangoPaginator) (queryset : List Int)
    (request : Request) : Except PyErr (Option (List Int)) := do
  let pso ← async_get_page_size self request
  match pso with
  | none => return none
  | some ps =>
    if ps = 0 then
      return none
    else
      let paginator := mkPaginator queryset ps
      let pn := get_page_number self request paginator
      match paginator.pageAt pn with
      | none => Except.error PyErr.notFound
      | some page => return some page.object_list

/-- The host framework's synchronous `PageNumberPagination.paginate_queryset`,
which the spec says the async method reimplements. -/
def drf_paginate_queryset (self : PageNumberPaginationState)
    (mkPaginator : List Int → Int → DjangoPaginator) (queryset : List Int)
    (request : Request) : Except PyErr (Option (List Int)) :=
  match drf_get_page_size self request with
  | none => Except.ok none
  | some ps =>
    if ps = 0 then
      Except.ok none
    else
      let paginator := mkPaginator queryset ps
      let pn := get_page_number self request paginator
      match paginator.pageAt pn with
      | none => Except.error PyErr.notFound
      | some page => Except.ok (some page.object_list)

/-- A `PageNumberAsyncPagination` instance with the host framework's default
attributes and a concrete `page_size`. -/
def stdPageNumber : PageNumberPaginationState :=
  { page_size := some 3, page_query_param := "page", page_size_query_param := "",
    max_page_size := none, last_page_strings := ["last"] }

/-! ### C3: `CursorPagination.encode_cursor` / `decode_cursor`
(paginations.py 574-606) -/

/-- The global names bound in the module `aiodrf/paginations.py`: the
imported names (lines 1-13), the module-level rebindings and definitions
(lines 15-79) and the three class statements.  `b64decode`, `b64encode`,
`parse` and `Q` are referenced inside the `CursorPagination` methods but are
never imported. -/
def paginationsModuleNames : List String :=
  ["warnings", "contextlib", "PageNumberPagination", "LimitOffsetPagination",
   "CursorPagination", "remove_query_param", "replace_query_param", "NotFound",
   "Response", "coreapi", "coreschema", "loader", "_", "InvalidPage",
   "force_str", "namedtuple", "sync_to_async", "Cursor", "PageLink",
   "PAGE_BREAK", "_reverse_ordering", "_get_displayed_page_numbers",
   "_get_page_links", "_positive_int", "PageNumberAsyncPagination",
   "LimitOffsetAsyncPagination"]

/-- The value bound to `offset` by `decode_cursor`: either an integer, or the
un-awaited coroutine object produced by calling the `async def _positive_int`
without `await` (paginations.py 584). -/
inductive PyOffset where
  | int (n : Int)
  | coroutine
  deriving DecidableEq, Repr

/-- The `Cursor` namedtuple (paginations.py 18). -/
structure CursorT where
  offset : PyOffset
  reverse : Bool
  position : Option String
  deriving DecidableEq, Repr

/-- The attributes of `CursorPagination` relevant to the claim. -/
structure CursorPaginationState where
  cursor_query_param : String
  offset_cutoff : Int

/-- `CursorPagination.encode_cursor(cursor)` (paginations.py 595-606): the
`tokens` dict is built from the cursor, then `parse.urlencode(tokens,
doseq=True)` is evaluated.  `parse` is a free name that is not bound in the
module, so evaluating it raises `NameError` (`b64encode` on the next line is
unbound as well).  The unreachable success continuation transcribes the
encoding with `urlencode`/`b64encode` supplied as `urle`/`b64e`. -/
def encode_cursor (self : CursorPaginationState) (base_url : String)
    (urle : List (String × String) → String) (b64e : String → String)
    (rqp : String → String → String → String) (cursor : CursorT) :
    Except PyErr String :=
  let tokens : List (String × String) :=
    (if cursor.offset ≠ PyOffset.int 0 then
      [("o", match cursor.offset with | PyOffset.int n => toString n | _ => "")]
     else [])
    ++ (if cursor.reverse then [("r", "1")] else [])
    ++ (match cursor.position with | some p => [("p", p)] | none => [])
  if "parse" ∈ paginationsModuleNames ∧ "b64encode" ∈ paginationsModuleNames then
    Except.ok (rqp base_url self.cursor_query_param (b64e (urle tokens)))
  else Except.error PyErr.nameError

/-- `CursorPagination.decode_cursor(request)` (paginations.py 574-593):
`None` when the cursor query parameter is absent; otherwise the body of the
`try` block first evaluates `b64decode(...)`, a free name that is not bound
in the module, raising `NameError` — which the `except (TypeError,
ValueError)` clause does not catch, so the method raises `NameError` rather
than `NotFound`.  The unreachable success continuation transcribes the
decoding (`b64d`/`parseQs` supplied), including the un-awaited
`_positive_int` call whose result is a coroutine object, not an int. -/
def decode_cursor (self : CursorPaginationState)
    (query_params : List (String × String)) (b64d : String → Option String)
    (parseQs : String → List (String × String)) :
    Except PyErr (Option CursorT) :=
  match lookupParam query_params self.cursor_query_param with
  | none => Except.ok none
  | some encoded =>
    if "b64decode" ∈ paginationsModuleNames then
      match b64d encoded with
      | none => Except.error PyErr.notFound
      | some querystring =>
        let tokens := parseQs querystring
        let reverseStr := (lookupParam tokens "r").getD "0"
        match pyInt reverseStr with
        | none => Except.error PyErr.notFound
        | some rint =>
          Except.ok (some
            { offset := PyOffset.coroutine
              reverse := rint ≠ 0
              position := lookupParam tokens "p" })
    else Except.error PyErr.nameError

/-! ### C9: `UpdateModelAsyncMixin.partial_update` (mixins.py 67-69) -/

/-- Method names defined by `UpdateModelAsyncMixin` (mixins.py 49-69). -/
def updateModelAsyncMixin_defines : List String :=
  ["update", "perform_update", "partial_update"]

/-- Method names defined by `UpdateAPIView` (generics.py 128-134). -/
def updateAPIView_defines : List String :=
  ["put", "patch"]

/-- Method names defined by `GenericAPIView` (generics.py 19-101). -/
def genericAPIView_defines : List String :=
  ["get_queryset", "get_object", "get_serializer", "get_serializer_class",
   "get_serializer_context", "filter_queryset", "paginator",
   "paginate_queryset", "get_paginated_response"]

/-- The non-dunder attributes resolvable on an `UpdateAPIView` instance:
the methods defined in the repository (generics.py, mixins.py) plus whatever
the host framework's base classes (`UpdateModelMixin`, `APIView`, ...)
provide, passed in as `hostMethods`. -/
def updateAPIView_attrs (hostMethods : List String) : List String :=
  updateAPIView_defines ++ updateModelAsyncMixin_defines
    ++ genericAPIView_defines ++ hostMethods

/-- Attribute resolution `getattr(self, name)`: `AttributeError` when the
name is found nowhere in the class hierarchy. -/
def resolveAttr (attrs : List String) (name : String) : Except PyErr String :=
  if name ∈ attrs then Except.ok name else Except.error PyErr.attributeError

/-- `UpdateModelAsyncMixin.partial_update(request, *args, **kwargs)`
(mixins.py 67-69): sets `kwargs["partial"] = True` and evaluates
`self.aupdate(request, *args, **kwargs)`; Python first resolves the
attribute `aupdate` on the instance. -/
def mixin_partial_update (attrs : List String) : Except PyErr String :=
  resolveAttr attrs "aupdate"

/-- The host framework's `UpdateModelMixin.partial_update`, which the mixin
was evidently meant to mirror: it calls `self.update(request, *args,
partial=True)`. -/
def drf_partial_update (attrs : List String) : Except PyErr String :=
  resolveAttr attrs "update"

/-! ### C6: `ViewSet.view_is_async` and `ViewSetMixin.as_view`
(viewsets.py 12-87) -/

/-- One entry of `cls.__dict__`: the attribute name, whether the value is
callable, and whether `asyncio.iscoroutinefunction` holds of it. -/
structure ClassAttr where
  name : String
  isCallable : Bool
  isCoroutineFn : Bool

/-- `ViewSet.view_is_async` (viewsets.py 80-87):
`any(asyncio.iscoroutinefunction(f) for name, f in cls.__dict__.items()
if callable(f) and not name.startswith("__"))`. -/
def view_is_async (clsDict : List ClassAttr) : Bool :=
  (clsDict.filter (fun a => a.isCallable && ! pyStartsWith a.name "__")).any
    (fun a => a.isCoroutineFn)

/-- A dunder name: starts and ends with a double underscore. -/
def isDunder (s : String) : Bool := pyStartsWith s "__" && pyEndsWith s "__"

/-- Which of the two nested view functions `ViewSetMixin.as_view` returns. -/
inductive ViewKind where
  | syncView
  | asyncView
  deriving DecidableEq, Repr

/-- `ViewSetMixin.as_view(actions, **initkwargs)` (viewsets.py 14-75): after
the argument checks (no actions, http-method initkwarg, unknown initkwarg,
`name` together with `suffix` — each a `TypeError`), line 70 selects
`async_view` (which awaits `self.dispatch`) exactly when `cls.view_is_async`
and the synchronous `view` otherwise. -/
def as_view (clsDict : List ClassAttr) (clsAttrNames : List String)
    (http_method_names : List String) (actions : List (String × String))
    (initkwargs : List String) : Except PyErr ViewKind :=
  if actions.isEmpty then Except.error PyErr.typeError
  else if initkwargs.any (fun k => decide (k ∈ http_method_names)) then
    Except.error PyErr.typeError
  else if initkwargs.any (fun k => ! decide (k ∈ clsAttrNames)) then
    Except.error PyErr.typeError
  else if "name" ∈ initkwargs ∧ "suffix" ∈ initkwargs then
    Except.error PyErr.typeError
  else
    Except.ok (if view_is_async clsDict then ViewKind.asyncView else ViewKind.syncView)



/-! ### C4: `ModelSerializerAsync.__get_async` delegation (serializers.py
507-626)

`__get_async(attr)` resolves `getattr(type(self).__base__.__base__, attr)`
and wraps it with `sync_to_async`; `adata`, `aerrors`, `avalidated_data`,
`ais_valid` and the synchronous `data`/`errors`/`validated_data`/`is_valid`
properties (the latter through `asyncio.run`) all call the resolved attribute
on `self`.  The class hierarchy is
`ModelSerializerAsync → ModelSerializer → Serializer → BaseSerializer`, with
user subclasses stacked on top; `ModelSerializer` defines none of the four
wrapped attributes, so `getattr` on it finds the same implementation as
`getattr` on `Serializer`, and the model below treats the two sync classes
uniformly through the class tag carried by `ResolvedAttr.syncAttr`. -/

/-- A class in the serializer hierarchy: the two host-framework synchronous
classes that carry the wrapped attributes, the host `ModelSerializer`, the
repository's `ModelSerializerAsync`, and user subclasses (`sub`). -/
inductive SerializerClass where
  | baseSerializer
  | serializer
  | modelSerializer
  | modelSerializerAsync
  | sub (parent : SerializerClass)
  deriving DecidableEq, Repr

/-- `cls.__base__`. -/
def classBase : SerializerClass → Option SerializerClass
  | SerializerClass.baseSerializer => none
  | SerializerClass.serializer => some SerializerClass.baseSerializer
  | SerializerClass.modelSerializer => some SerializerClass.serializer
  | SerializerClass.modelSerializerAsync => some SerializerClass.modelSerializer
  | SerializerClass.sub p => some p

/-- `type(self).__base__.__base__`, the delegation target computed by
`__get_async` (serializers.py line 542). -/
def grandparent (c : SerializerClass) : Option SerializerClass :=
  (classBase c).bind classBase

/-- What `getattr(cls, attr)` finds for one of the wrapped attributes
(`data`, `errors`, `validated_data`, `is_valid`): a synchronous
implementation (tagged with the class whose definition is found) or
`ModelSerializerAsync`'s own `asyncio.run`-routing property. -/
inductive ResolvedAttr where
  | syncAttr (cls : SerializerClass)
  | asyncRoutingAttr
  deriving DecidableEq, Repr

/-- `getattr(cls, attr)` through the MRO for a wrapped attribute:
`BaseSerializer` and `Serializer` define the synchronous implementations,
`ModelSerializer` defines none of them (so the lookup falls through to
`Serializer`), `ModelSerializerAsync` defines the routing properties, and a
user subclass defines none (lookup falls through to its parent). -/
def getattrWrapped : SerializerClass → Option ResolvedAttr
  | SerializerClass.baseSerializer => some (ResolvedAttr.syncAttr SerializerClass.baseSerializer)
  | SerializerClass.serializer => some (ResolvedAttr.syncAttr SerializerClass.serializer)
  | SerializerClass.modelSerializer => some (ResolvedAttr.syncAttr SerializerClass.serializer)
  | SerializerClass.modelSerializerAsync => some ResolvedAttr.asyncRoutingAttr
  | SerializerClass.sub p => getattrWrapped p

/-- The value the synchronous attribute access (`ModelSerializer`'s own
`data`/`errors`/`validated_data`/`is_valid` on the same state) produces:
`syncValue` maps the class whose implementation is found to its result on
the (implicit, fixed) serializer state. -/
def syncAttrValue {V : Type} (syncValue : SerializerClass → V) (c : SerializerClass) :
    Option V :=
  match getattrWrapped c with
  | some (ResolvedAttr.syncAttr k) => some (syncValue k)
  | _ => none

/-- Evaluation of `await self.__get_async(attr)(self)` (used verbatim by
`adata`/`aerrors`/`avalidated_data`/`ais_valid`, and through `asyncio.run`
by the synchronous `data`/`errors`/`validated_data`/`is_valid` properties)
on an instance of class `c`: resolve `type(self).__base__.__base__`, fetch
the attribute there; a synchronous implementation returns its value, while
`ModelSerializerAsync`'s own routing property re-enters the very same
resolution on the same instance (infinite recursion, `RecursionError`
modelled by running out of `fuel`, result `none`). -/
def adata {V : Type} (syncValue : SerializerClass → V) :
    Nat → SerializerClass → Option V
  | 0, _ => none
  | fuel + 1, c =>
    match grandparent c with
    | none => none
    | some g =>
      match getattrWrapped g with
      | none => none
      | some (ResolvedAttr.syncAttr k) => some (syncValue k)
      | some ResolvedAttr.asyncRoutingAttr => adata syncValue fuel c

/-- Whether a class is `ModelSerializerAsync` or a subclass of it. -/
def extendsAsync : SerializerClass → Bool
  | SerializerClass.modelSerializerAsync => true
  | SerializerClass.sub p => extendsAsync p
  | _ => false

/-- How many `sub` layers sit on top of the named classes. -/
def subDepth : SerializerClass → Nat
  | SerializerClass.sub p => subDepth p + 1
  | _ => 0

/-! ### C1: JSON:API serialization (serializers_jsonapi.py) -/

/-- A Python/JSON value as produced by the JSON:API serializers. -/
inductive JVal where
  | null
  | b (v : Bool)
  | i (n : Int)
  | s (v : String)
  | arr (xs : List JVal)
  | obj (fs : List (String × JVal))

/-- Python truthiness of such a value (`if val` in the comprehension at
serializers_jsonapi.py line 616). -/
def JVal.truthy : JVal → Bool
  | JVal.null => false
  | JVal.b v => v
  | JVal.i n => n != 0
  | JVal.s v => v != ""
  | JVal.arr xs => ! xs.isEmpty
  | JVal.obj fs => ! fs.isEmpty

/-- `d.get(k)` on an association list. -/
def lookupKey {β : Type} (l : List (String × β)) (k : String) : Option β :=
  (l.find? (fun p => p.1 = k)).map (fun p => p.2)

/-- `d.keys()` of an association list. -/
def keysOf {β : Type} (l : List (String × β)) : List String := l.map (fun p => p.1)

/-- `findall('[A-Z][^A-Z]*', name)`: the maximal segments each starting at an
uppercase letter; characters before the first uppercase letter belong to no
match. -/
def capsSegments (l : List Char) : List (List Char) :=
  (l.foldl
    (fun acc c =>
      if c.isUpper then [c] :: acc
      else
        match acc with
        | [] => []
        | seg :: rest => (c :: seg) :: rest)
    []).reverse.map List.reverse

/-- `get_type_from_model(obj_type)` (helpers.py 63-64):
`'-'.join(findall('[A-Z][^A-Z]*', obj_type.__name__)).lower()`. -/
def get_type_from_model (className : String) : String :=
  String.mk ((((capsSegments className.data).intersperse ['-']).flatten).map Char.toLower)

/-- The value of a relationship attribute on the serialized instance: a
nullable foreign key or a to-many manager (`hasattr(val, 'all')`); related
objects only contribute their class name and id here. -/
inductive RelVal where
  | toOne (obj : Option (String × Int))
  | toMany (objs : List (String × Int))

/-- The serialized model instance: its class name, id, and the values
`getattr(instance, name)` produces for attribute and relationship names. -/
structure PyInstance where
  className : String
  id : Int
  attrs : List (String × JVal)
  rels : List (String × RelVal)

/-- The serializer's declared fields: the keys of the nested `Attributes`
and `Relationships` serializers' `_declared_fields`. -/
structure SerializerDecl where
  declaredAttrs : List String
  declaredRels : List String

/-- Serializer construction context: the request URL captured at `__init__`
(serializers_jsonapi.py 44-47; absent when no request is in the context) and
the `is_included_disabled` flag. -/
structure SerializerCtx where
  requestUrl : Option String
  is_included_disabled : Bool

/-- `JSONAPIObjectIdSerializer.to_representation` (serializers_jsonapi.py
466-467): `{'type': get_type_from_model(cls), 'id': instance.id}`. -/
def objectIdRepr (className : String) (id : Int) : List (String × JVal) :=
  [("type", JVal.s (get_type_from_model className)), ("id", JVal.i id)]

/-- `JSONAPIAttributesSerializer.to_representation` (serializers_jsonapi.py
474-479): `{name: instance_map[name]}` over the declared fields, where
`instance_map = {key: await getattr(instance, key)}` raises
`AttributeError` for a field the instance lacks. -/
def attributesRepr : List String → List (String × JVal) → Except PyErr (List (String × JVal))
  | [], _ => Except.ok []
  | n :: rest, attrs =>
    match lookupKey attrs n with
    | none => Except.error PyErr.attributeError
    | some v =>
      match attributesRepr rest attrs with
      | Except.error e => Except.error e
      | Except.ok l => Except.ok ((n, v) :: l)

/-- `JSONAPIRelationsSerializer.to_representation` (serializers_jsonapi.py
484-510): first the comprehension `{key: await getattr(instance, key)}`
over the declared fields (`AttributeError` for a missing one); then, for the
first declared field, `objects = [await obj for obj in
JSONAPIObjectIdSerializer(..., many=True).data]` iterates the many
serializer's `data` property; that property getter is an `async def`, so the
attribute access yields a coroutine object and the `for` raises
`TypeError: 'coroutine' object is not iterable`.  The method therefore
returns `{}` for an empty declared-field set and raises otherwise. -/
def relationshipsRepr (decl : List String) (rels : List (String × RelVal)) :
    Except PyErr (List (String × JVal)) :=
  if ¬ decl.all (fun n => (lookupKey rels n).isSome) then
    Except.error PyErr.attributeError
  else
    match decl with
    | [] => Except.ok []
    | _ :: _ => Except.error PyErr.typeError

/-- The detail-URL derivation of serializers_jsonapi.py lines 600-604:
`url = getattr(self, 'links', None)` (the request URL captured at
construction) and `if url and not url.endswith(parent_id + '/'):
url = f"{url}{parent_id}/"`. -/
def detailUrl (requestUrl : Option String) (parent_id : String) : Option String :=
  match requestUrl with
  | none => none
  | some u => if pyEndsWith u (parent_id ++ "/") then some u
              else some (u ++ parent_id ++ "/")

/-- The `links` entry value `{'self': url}` (serializers_jsonapi.py 622). -/
def linksVal (url : Option String) : JVal :=
  JVal.obj [("self", match url with | some u => JVal.s u | none => JVal.null)]

/-- `JSONAPISerializer.to_representation(instance)` (serializers_jsonapi.py
592-624) for a serializer declaring `decl`, under context `ctx`: `obj_map`
from the `ObjectId` serializer, the detail-URL derivation, the
`attributes`/`relationships` sub-documents (`{}` when the nested serializer
declares no fields, its `data` otherwise), the truthiness filter
`{key: val for key, val in data.items() if val}`, then `_get_included` and
the `links` entry when included-rendering is enabled (with no declared
relationships the filtered document has no `relationships` key, so
`_get_included` returns immediately and `included` stays empty; with
declared relationships the nested rendering has already raised), and finally
`{'data': ..., 'included': ...}`. -/
def jsonapi_to_representation (decl : SerializerDecl) (inst : PyInstance)
    (ctx : SerializerCtx) : Except PyErr JVal :=
  match (if decl.declaredAttrs.isEmpty then Except.ok []
         else attributesRepr decl.declaredAttrs inst.attrs) with
  | Except.error e => Except.error e
  | Except.ok attrsFields =>
    match (if decl.declaredRels.isEmpty then Except.ok []
           else relationshipsRepr decl.declaredRels inst.rels) with
    | Except.error e => Except.error e
    | Except.ok relsFields =>
      let data0 : List (String × JVal) :=
        objectIdRepr inst.className inst.id
          ++ [("attributes", JVal.obj attrsFields),
              ("relationships", JVal.obj relsFields)]
      let data1 := data0.filter (fun p => JVal.truthy p.2)
      if ctx.is_included_disabled then
        Except.ok (JVal.obj [("data", JVal.obj data1), ("included", JVal.arr [])])
      else
        let data2 := data1
          ++ [("links", linksVal (detailUrl ctx.requestUrl (toString inst.id)))]
        Except.ok (JVal.obj [("data", JVal.obj data2), ("included", JVal.arr [])])

/-- The per-instance loop of `JSONAPIManySerializer.to_representation`
(serializers_jsonapi.py 431-454): each instance is rendered by a fresh child
serializer with `is_included_disabled` set in its context, and the `data`
entry of the result is appended (the whole result on a `KeyError`). -/
def manyDataList (decl : SerializerDecl) (ctx : SerializerCtx) :
    List PyInstance → Except PyErr (List JVal)
  | [] => Except.ok []
  | inst :: rest =>
    match jsonapi_to_representation decl inst
        { ctx with is_included_disabled := true } with
    | Except.error e => Except.error e
    | Except.ok objData =>
      let dataField := match objData with
        | JVal.obj fs => (lookupKey fs "data").getD objData
        | v => v
      match manyDataList decl ctx rest with
      | Except.error e => Except.error e
      | Except.ok l => Except.ok (dataField :: l)

/-- `JSONAPIManySerializer.to_representation(iterable)` (serializers_jsonapi
.py 447-460): a plain list is not async-iterable, so the `async for` raises
`TypeError`, which is caught and the synchronous loop runs; `included` is
only ever populated through `child._get_included`, a no-op when the child
declares no relationships (and unreachable otherwise, since the child
rendering raises first); the result is
`{'data': data, 'included': list(included.values())}`. -/
def jsonapi_many_to_representation (decl : SerializerDecl)
    (insts : List PyInstance) (ctx : SerializerCtx) : Except PyErr JVal :=
  match manyDataList decl ctx insts with
  | Except.error e => Except.error e
  | Except.ok l => Except.ok (JVal.obj [("data", JVal.arr l), ("included", JVal.arr [])])

/-! ### C5: `ModelSerializerAsync.create` vs `ModelSerializerAsync.acreate`
(serializers.py 668-704 and 726-779)

`create` delegates to the host ORM (`ModelClass._default_manager.acreate`
followed by `field.aset` for the popped many-to-many entries); `acreate`
opens its own database connection and issues a raw `INSERT` (plus raw
through-table inserts).  The host-framework and database-driver semantics
(row insertion, model defaults versus database NULL, `aset` writing
through-table pairs, `RETURNING *`) are modelled from the spec: "Every
non-trivial operation is delegated to the underlying web framework and its
database driver". -/

/-- A value inside `validated_data`: a plain scalar column value, a to-one
related id, or a to-many list of related ids. -/
inductive VDVal where
  | scalar (v : JVal)
  | relId (n : Int)
  | relIds (l : List Int)

/-- `create`/`acreate` input: a single dict or a list of dicts
(`validated_data = [validated_data] if type(validated_data) == dict else
validated_data`, serializers.py line 727). -/
inductive PyInput where
  | dict (d : List (String × VDVal))
  | list (ds : List (List (String × VDVal)))

/-- The model metadata both paths read through `model_meta.get_field_info`:
the non-relational concrete fields with their Python-level defaults
(`JVal.null` when the model declares none), the forward to-one relations and
the to-many relations. -/
structure ModelMeta where
  concreteFields : List (String × JVal)
  toOneRels : List String
  toManyRels : List String

/-- Database state: the next autoincrement id, the model's table rows
(id plus columns), and the many-to-many through rows as
(field name, (model id, related id)). -/
structure DBState where
  nextId : Int
  rows : List (Int × List (String × JVal))
  through : List (String × (Int × Int))

/-- The row the host ORM writes for
`ModelClass._default_manager.acreate(**d)` (spec-modelled): every concrete
column receives the validated value when present and the model default
otherwise; forward foreign-key columns are NULL unless assigned. -/
def ormRow (meta : ModelMeta) (d : List (String × VDVal)) : List (String × JVal) :=
  meta.concreteFields.map (fun f =>
    match lookupKey d f.1 with
    | some (VDVal.scalar v) => (f.1, v)
    | _ => (f.1, f.2))
  ++ meta.toOneRels.map (fun n => (n ++ "_id", JVal.null))

/-- Whether a looked-up `validated_data` entry is a present scalar. -/
def isScalarEntry : Option VDVal → Bool
  | some (VDVal.scalar _) => true
  | _ => false

/-- Whether a looked-up to-many entry is absent or a list of ids. -/
def isRelIdsEntry : Option VDVal → Bool
  | none => true
  | some (VDVal.relIds _) => true
  | _ => false

/-- `ModelClass._default_manager.acreate(**d)` (spec-modelled Django
semantics): a kwarg that names no model field raises `TypeError`; an id (or
other non-instance) value assigned to a forward foreign key raises
`ValueError` (Django requires a model instance there; instance values are
outside this model); otherwise the row is written under a fresh id. -/
def django_acreate (meta : ModelMeta) (db : DBState) (d : List (String × VDVal)) :
    Except PyErr ((Int × List (String × JVal)) × DBState) :=
  if d.any (fun p => ! (decide (p.1 ∈ keysOf meta.concreteFields)
      || decide (p.1 ∈ meta.toOneRels))) then
    Except.error PyErr.typeError
  else if d.any (fun p => decide (p.1 ∈ meta.toOneRels)) then
    Except.error PyErr.valueError
  else
    Except.ok ((db.nextId, ormRow meta d),
      { nextId := db.nextId + 1,
        rows := db.rows ++ [(db.nextId, ormRow meta d)],
        through := db.through })

/-- `getattr(instance, field_name).aset(value)` (spec-modelled): write one
through-table pair per related id; a value that is not a list of ids has no
ORM adaptation (`TypeError`). -/
def asetPairs (fieldName : String) (instId : Int) :
    VDVal → Except PyErr (List (String × (Int × Int)))
  | VDVal.relIds l => Except.ok (l.map (fun x => (fieldName, (instId, x))))
  | _ => Except.error PyErr.typeError

/-- The `for field_name, value in many_to_many.items(): field.aset(value)`
loop of `create` (serializers.py 699-702). -/
def asetAll (d : List (String × VDVal)) (instId : Int) :
    List String → Except PyErr (List (String × (Int × Int)))
  | [] => Except.ok []
  | n :: rest =>
    match lookupKey d n with
    | none => Except.error PyErr.keyError
    | some v =>
      match asetPairs n instId v with
      | Except.error e => Except.error e
      | Except.ok pairs =>
        match asetAll d instId rest with
        | Except.error e => Except.error e
        | Except.ok more => Except.ok (pairs ++ more)

/-- `ModelSerializerAsync.create(validated_data)` (serializers.py 668-704):
pop the to-many entries that are present, call
`ModelClass._default_manager.acreate(**rest)` (a `TypeError` is re-raised as
`TypeError` with a longer message), then `field.aset(value)` per popped
entry.  For a list input the pops are no-ops (`field_name in validated_data`
is a membership test over a list of dicts, always false) and the `**`
unpacking of the list raises `TypeError`. -/
def m2mNamesOf (meta : ModelMeta) (d : List (String × VDVal)) : List String :=
  meta.toManyRels.filter (fun n => (lookupKey d n).isSome)

def restOf (meta : ModelMeta) (d : List (String × VDVal)) : List (String × VDVal) :=
  d.filter (fun p => ! decide (p.1 ∈ m2mNamesOf meta d))

def serializer_create (meta : ModelMeta) (db : DBState) :
    PyInput → Except PyErr ((Int × List (String × JVal)) × DBState)
  | PyInput.list _ => Except.error PyErr.typeError
  | PyInput.dict d =>
    match django_acreate meta db (restOf meta d) with
    | Except.error e => Except.error e
    | Except.ok (inst, db2) =>
      match asetAll d inst.1 (m2mNamesOf meta d) with
      | Except.error e => Except.error e
      | Except.ok pairs =>
        Except.ok (inst, { db2 with through := db2.through ++ pairs })

/-- The transformation `acreate` applies to each dict (serializers.py
732-740): pop every relation entry; for a to-one relation store
`field_name + "_id"` mapped to the popped value (`None` when absent). -/
def acreateTransform (meta : ModelMeta) (d : List (String × VDVal)) :
    List (String × VDVal) :=
  d.filter (fun p => ! decide (p.1 ∈ meta.toOneRels)
      && ! decide (p.1 ∈ meta.toManyRels))
  ++ meta.toOneRels.map (fun n => (n ++ "_id",
      match lookupKey d n with
      | some v => v
      | none => VDVal.scalar JVal.null))

/-- The `many_to_many` dict `acreate` collects, iterating the to-many
relations in declaration order. -/
def acreateM2Mgo (d : List (String × VDVal)) :
    List String → Except PyErr (List (String × List Int))
  | [] => Except.ok []
  | n :: rest =>
    match lookupKey d n with
    | none => acreateM2Mgo d rest
    | some (VDVal.scalar JVal.null) => acreateM2Mgo d rest
    | some (VDVal.relIds ids) =>
      match acreateM2Mgo d rest with
      | Except.error e => Except.error e
      | Except.ok l => Except.ok ((n, ids) :: l)
    | some _ => Except.error PyErr.typeError

/-- The `many_to_many` dict `acreate` collects (serializers.py 737-740): an
entry per to-many relation whose popped value is not `None`;
`[... for x in rel_data]` needs an iterable list of ids. -/
def acreateM2M (meta : ModelMeta) (d : List (String × VDVal)) :
    Except PyErr (List (String × List Int)) :=
  acreateM2Mgo d meta.toManyRels

/-- The related ids a to-many entry holds (empty when the entry is absent);
used to state the agreement of the two creation paths. -/
def relIdsOf (d : List (String × VDVal)) (n : String) : List Int :=
  match lookupKey d n with
  | some (VDVal.relIds l) => l
  | _ => []

/-- The psycopg adaptation of a value placed in an `INSERT` parameter list:
scalars and ids adapt, a Python list of ids does not. -/
def vdToCol : VDVal → Except PyErr JVal
  | VDVal.scalar v => Except.ok v
  | VDVal.relId n => Except.ok (JVal.i n)
  | VDVal.relIds _ => Except.error PyErr.typeError

/-- The value the database stores in column `name` for the raw `INSERT`
whose column list is `keys` (spec-modelled): listed columns receive the
adapted value (`data[key]` raising `KeyError` when a later dict lacks a key
of the first), unlisted columns the database default NULL — the raw path
never applies the Python-level model defaults. -/
def colVal (keys : List String) (t : List (String × VDVal)) (name : String) :
    Except PyErr JVal :=
  if name ∈ keys then
    match lookupKey t name with
    | none => Except.error PyErr.keyError
    | some v => vdToCol v
  else Except.ok JVal.null

/-- The concrete-field columns of the row written by `acreate`'s `INSERT`. -/
def acreateConcreteCols (keys : List String) (t : List (String × VDVal)) :
    List (String × JVal) → Except PyErr (List (String × JVal))
  | [] => Except.ok []
  | f :: rest =>
    match colVal keys t f.1 with
    | Except.error e => Except.error e
    | Except.ok v =>
      match acreateConcreteCols keys t rest with
      | Except.error e => Except.error e
      | Except.ok l => Except.ok ((f.1, v) :: l)

/-- The foreign-key columns of the row written by `acreate`'s `INSERT`. -/
def acreateFkCols (keys : List String) (t : List (String × VDVal)) :
    List String → Except PyErr (List (String × JVal))
  | [] => Except.ok []
  | n :: rest =>
    match colVal keys t (n ++ "_id") with
    | Except.error e => Except.error e
    | Except.ok v =>
      match acreateFkCols keys t rest with
      | Except.error e => Except.error e
      | Except.ok l => Except.ok ((n ++ "_id", v) :: l)

/-- The full row written by `acreate`'s `INSERT` for one transformed dict. -/
def acreateRow (meta : ModelMeta) (keys : List String)
    (t : List (String × VDVal)) : Except PyErr (List (String × JVal)) :=
  match acreateConcreteCols keys t meta.concreteFields with
  | Except.error e => Except.error e
  | Except.ok c =>
    match acreateFkCols keys t meta.toOneRels with
    | Except.error e => Except.error e
    | Except.ok k => Except.ok (c ++ k)

/-- The rows for all transformed dicts, with their assigned ids starting at
`firstId` (`executemany` then `SELECT * ... ORDER BY ID DESC LIMIT n` with
`sorted(...)`, which yields the inserted rows in ascending id order —
insertion order, serializers.py 761-762). -/
def acreateRows (meta : ModelMeta) (keys : List String) (firstId : Int) :
    List (List (String × VDVal)) → Except PyErr (List (Int × List (String × JVal)))
  | [] => Except.ok []
  | t :: rest =>
    match acreateRow meta keys t with
    | Except.error e => Except.error e
    | Except.ok row =>
      match acreateRows meta keys (firstId + 1) rest with
      | Except.error e => Except.error e
      | Except.ok more => Except.ok ((firstId, row) :: more)

/-- The `many_to_many` collection for the remaining dicts of a list input
(their values only matter through the errors they can raise; the final
`many_to_many` dict is only consumed by the single-row branch). -/
def checkM2M (meta : ModelMeta) : List (List (String × VDVal)) → Except PyErr Unit
  | [] => Except.ok ()
  | d :: rest =>
    match acreateM2M meta d with
    | Except.error e => Except.error e
    | Except.ok _ => checkM2M meta rest

/-- The column list of `acreate`'s `INSERT`: the keys of the first
transformed dict minus `id` (serializers.py 742-743). -/
def acreateKeys (meta : ModelMeta) (d0 : List (String × VDVal)) : List String :=
  (keysOf (acreateTransform meta d0)).filter (fun k => k ≠ "id")

/-- The through-table pairs the single-row `create`/`acreate` branch writes,
one per related id of each present to-many entry. -/
def createPairs (meta : ModelMeta) (d : List (String × VDVal)) (instId : Int) :
    List (String × (Int × Int)) :=
  ((m2mNamesOf meta d).map (fun n =>
    (relIdsOf d n).map (fun x => (n, (instId, x))))).flatten

/-- `ModelSerializerAsync.acreate(validated_data)` (serializers.py 726-779):
wrap a dict input into a one-element list, transform every dict (popping the
relations, adding the `_id` columns, collecting `many_to_many`), take the
column list from the first dict minus `id`, `INSERT` the rows under fresh
ids; with more than one row return the list of constructed instances and
skip the many-to-many inserts entirely (the through-table loop sits in the
single-row branch only); with one row insert its `many_to_many` pairs and
return the single instance (encoded as the one-element list of
instances). -/
def serializer_acreate (meta : ModelMeta) (db : DBState) (input : PyInput) :
    Except PyErr ((List (Int × List (String × JVal))) × DBState) :=
  let ds := match input with
    | PyInput.dict d => [d]
    | PyInput.list ds => ds
  match ds with
  | [] => Except.error PyErr.indexError
  | d0 :: rest =>
    match acreateM2M meta d0 with
    | Except.error e => Except.error e
    | Except.ok m2m0 =>
      match checkM2M meta rest with
      | Except.error e => Except.error e
      | Except.ok _ =>
        match acreateRows meta (acreateKeys meta d0) db.nextId
            ((d0 :: rest).map (acreateTransform meta)) with
        | Except.error e => Except.error e
        | Except.ok idRows =>
          if rest.isEmpty then
            let pairs := (m2m0.map (fun e =>
              e.2.map (fun x => (e.1, (db.nextId, x))))).flatten
            Except.ok (idRows,
              { nextId := db.nextId + 1,
                rows := db.rows ++ idRows,
                through := db.through ++ pairs })
          else
            Except.ok (idRows,
              { nextId := db.nextId + idRows.length,
                rows := db.rows ++ idRows,
                through := db.through })

/-- A concrete model for exercising the two creation paths: the test
project's `TestModel` (models.py): concrete fields `text` (default `''`)
and `int` (default `1`), forward relation `foreign_key`, to-many relation
`many_to_many`. -/
def c5meta : ModelMeta :=
  { concreteFields := [("text", JVal.s ""), ("int", JVal.i 1)],
    toOneRels := ["foreign_key"],
    toManyRels := ["many_to_many"] }

/-- A concrete database state: next id 5, no rows, no through rows. -/
def c5db : DBState := { nextId := 5, rows := [], through := [] }

/-- A concrete `validated_data` dict with a present to-many entry. -/
def c5d : List (String × VDVal) :=
  [("text", VDVal.scalar (JVal.s "a")), ("int", VDVal.scalar (JVal.i 3)),
   ("many_to_many", VDVal.relIds [1, 2])]

/-! ### Helper lemmas about `insertPy` and the page-number lists -/

theorem insertPy_length {α : Type} (i : Nat) (x : α) (l : List α) (hi : i ≤ l.length) :
    (insertPy i x l).length = l.length + 1 := by
  simp only [insertPy, List.length_append, List.length_take, List.length_cons,
    List.length_drop]
  omega

theorem insertPy_getElem?_lt {α : Type} (i : Nat) (x : α) (l : List α) (p : Nat)
    (hp : p < i) (hi : i ≤ l.length) : (insertPy i x l)[p]? = l[p]? := by
  unfold insertPy
  rw [List.getElem?_append]
  simp only [List.length_take]
  rw [if_pos (by omega)]
  rw [List.getElem?_take, if_pos hp]

theorem insertPy_getElem?_self {α : Type} (i : Nat) (x : α) (l : List α)
    (hi : i ≤ l.length) : (insertPy i x l)[i]? = some x := by
  unfold insertPy
  rw [List.getElem?_append_right (by simp only [List.length_take]; omega)]
  simp [Nat.min_eq_left hi]

theorem insertPy_getElem?_gt {α : Type} (i : Nat) (x : α) (l : List α) (p : Nat)
    (hip : i < p) (hi : i ≤ l.length) : (insertPy i x l)[p]? = l[p - 1]? := by
  unfold insertPy
  rw [List.getElem?_append_right (by simp only [List.length_take]; omega)]
  simp only [List.length_take, Nat.min_eq_left hi]
  have hpi : p - i = (p - i - 1) + 1 := by omega
  rw [hpi]
  simp only [List.getElem?_cons_succ]
  rw [List.getElem?_drop]
  congr 1
  omega

theorem filterMap_insertPy_none {α : Type} (i : Nat) (l : List (Option α)) :
    (insertPy i none l).filterMap id = l.filterMap id := by
  unfold insertPy
  rw [List.filterMap_append]
  have : (none :: l.drop i).filterMap (id : Option α → Option α)
      = (l.drop i).filterMap id := by simp
  rw [this, ← List.filterMap_append, List.take_append_drop]

theorem map_some_getElem?_ne {α : Type} (l : List α) (i : Nat) :
    (l.map some)[i]? ≠ some none := by
  rw [List.getElem?_map]
  cases l[i]? <;> simp

theorem mem_displayedCandidates {c f x : Nat} :
    x ∈ displayedCandidates c f ↔
      (x = 1 ∨ x = c - 1 ∨ x = c ∨ x = c + 1 ∨ x = f ∨
       (c ≤ 4 ∧ (x = 2 ∨ x = 3)) ∨ (f ≤ c + 3 ∧ (x = f - 1 ∨ x = f - 2))) := by
  by_cases h4 : c ≤ 4 <;> by_cases h3 : f ≤ c + 3
  all_goals simp [displayedCandidates, h4, h3]
  all_goals tauto

theorem mem_sortedIncluded {c f x : Nat} :
    x ∈ sortedIncluded c f ↔ (1 ≤ x ∧ x ≤ f ∧ x ∈ displayedCandidates c f) := by
  simp only [sortedIncluded, List.mem_filter, List.mem_range'_1, decide_eq_true_eq]
  constructor
  · rintro ⟨⟨h1, h2⟩, h3⟩
    exact ⟨h1, by omega, h3⟩
  · rintro ⟨h1, h2, h3⟩
    exact ⟨⟨h1, by omega⟩, h3⟩

theorem pairwise_sortedIncluded (c f : Nat) :
    List.Pairwise (· < ·) (sortedIncluded c f) :=
  List.Pairwise.sublist (List.filter_sublist _) (List.pairwise_lt_range' 1 f)

theorem one_mem_sortedIncluded {c f : Nat} (hf : 1 ≤ f) : 1 ∈ sortedIncluded c f := by
  rw [mem_sortedIncluded, mem_displayedCandidates]
  omega

theorem current_mem_sortedIncluded {c f : Nat} (h1 : 1 ≤ c) (h2 : c ≤ f) :
    c ∈ sortedIncluded c f := by
  rw [mem_sortedIncluded, mem_displayedCandidates]
  omega

theorem final_mem_sortedIncluded {c f : Nat} (hf : 1 ≤ f) : f ∈ sortedIncluded c f := by
  rw [mem_sortedIncluded, mem_displayedCandidates]
  omega

theorem sortedIncluded_length_ge_two {c f : Nat} (h5 : 5 < f) :
    2 ≤ (sortedIncluded c f).length := by
  have hsub : [1, f] ⊆ sortedIncluded c f := by
    intro x hx
    simp only [List.mem_cons, List.not_mem_nil, or_false] at hx
    rcases hx with h | h <;> subst h
    · exact one_mem_sortedIncluded (by omega)
    · exact final_mem_sortedIncluded (by omega)
  have hnd : ([1, f] : List Nat).Nodup := by
    simp
    omega
  simpa using (hnd.subperm hsub).length_le

theorem sortedIncluded_length_ge_four_left {c f : Nat} (hc : c ≤ 4) (h5 : 5 < f) :
    4 ≤ (sortedIncluded c f).length := by
  have hsub : [1, 2, 3, f] ⊆ sortedIncluded c f := by
    intro x hx
    simp only [List.mem_cons, List.not_mem_nil, or_false] at hx
    rcases hx with h | h | h | h <;> subst h <;>
      rw [mem_sortedIncluded, mem_displayedCandidates] <;> omega
  have hnd : ([1, 2, 3, f] : List Nat).Nodup := by
    simp
    omega
  simpa using (hnd.subperm hsub).length_le

theorem sortedIncluded_length_ge_four_right {c f : Nat} (hc : f - 3 ≤ c) (h2 : c ≤ f)
    (h5 : 5 < f) : 4 ≤ (sortedIncluded c f).length := by
  have hsub : [1, f - 2, f - 1, f] ⊆ sortedIncluded c f := by
    intro x hx
    simp only [List.mem_cons, List.not_mem_nil, or_false] at hx
    rcases hx with h | h | h | h <;> subst h <;>
      rw [mem_sortedIncluded, mem_displayedCandidates] <;> omega
  have hnd : ([1, f - 2, f - 1, f] : List Nat).Nodup := by
    simp
    omega
  simpa using (hnd.subperm hsub).length_le

theorem filterMap_id_map_some {α : Type} (l : List α) : (l.map some).filterMap id = l := by
  rw [List.filterMap_map]
  simp

theorem gdpn_of_five_lt (c f : Nat) (h : ¬ f ≤ 5) :
    _get_displayed_page_numbers c f =
      (if c < f - 3 then
        insertPy ((if 4 < c then insertPy 1 none ((sortedIncluded c f).map some)
                   else (sortedIncluded c f).map some).length - 1) none
          (if 4 < c then insertPy 1 none ((sortedIncluded c f).map some)
           else (sortedIncluded c f).map some)
       else (if 4 < c then insertPy 1 none ((sortedIncluded c f).map some)
             else (sortedIncluded c f).map some)) := by
  rw [_get_displayed_page_numbers, if_neg h]

theorem gdpn_filterMap (c f : Nat) (h : ¬ f ≤ 5) :
    (_get_displayed_page_numbers c f).filterMap id = sortedIncluded c f := by
  rw [gdpn_of_five_lt c f h]
  by_cases hcf : c < f - 3 <;> by_cases hc4 : 4 < c <;>
    simp only [if_pos, if_neg, hcf, hc4, ite_true, ite_false,
      filterMap_insertPy_none, filterMap_id_map_some]

theorem gdpn_break_positions (c f : Nat) (h1 : 1 ≤ c) (h2 : c ≤ f) (h5 : 5 < f) :
    ((_get_displayed_page_numbers c f)[1]? = some none ↔ 4 < c) ∧
    ((_get_displayed_page_numbers c f)[(_get_displayed_page_numbers c f).length - 2]?
        = some none ↔ c < f - 3) := by
  have hne : ¬ f ≤ 5 := by omega
  have hL2 : 2 ≤ (sortedIncluded c f).length := sortedIncluded_length_ge_two (by omega)
  have hM : ((sortedIncluded c f).map some).length = (sortedIncluded c f).length := by
    simp
  rw [gdpn_of_five_lt c f hne]
  set M := (sortedIncluded c f).map some with hMdef
  by_cases hc4 : 4 < c
  · have hlen2 : (insertPy 1 none M).length = M.length + 1 :=
      insertPy_length 1 none M (by omega)
    by_cases hcf : c < f - 3
    · rw [if_pos hcf, if_pos hc4]
      constructor
      · rw [insertPy_getElem?_lt _ none _ 1 (by omega) (by omega),
          insertPy_getElem?_self 1 none _ (by omega)]
        simp [hc4]
      · have e1 : (insertPy 1 none M).length - 1 = M.length := by omega
        rw [e1]
        have hlen3 : (insertPy M.length none (insertPy 1 none M)).length
            = M.length + 2 := by
          rw [insertPy_length _ none _ (by omega), hlen2]
        rw [hlen3]
        have e2 : M.length + 2 - 2 = M.length := by omega
        rw [e2, insertPy_getElem?_self M.length none _ (by omega)]
        simp [hcf]
    · rw [if_neg hcf, if_pos hc4]
      have hL4 : 4 ≤ (sortedIncluded c f).length :=
        sortedIncluded_length_ge_four_right (by omega) h2 h5
      constructor
      · rw [insertPy_getElem?_self 1 none _ (by omega)]
        simp [hc4]
      · rw [hlen2]
        have e1 : M.length + 1 - 2 = M.length - 1 := by omega
        rw [e1, insertPy_getElem?_gt 1 none _ _ (by omega) (by omega)]
        refine iff_of_false ?_ hcf
        rw [hMdef]
        exact map_some_getElem?_ne _ _
  · by_cases hcf : c < f - 3
    · rw [if_pos hcf, if_neg hc4]
      have hL4 : 4 ≤ (sortedIncluded c f).length :=
        sortedIncluded_length_ge_four_left (by omega) h5
      constructor
      · rw [insertPy_getElem?_lt _ none _ 1 (by omega) (by omega)]
        refine iff_of_false ?_ hc4
        rw [hMdef]
        exact map_some_getElem?_ne _ _
      · have hlen3 : (insertPy (M.length - 1) none M).length = M.length + 1 :=
          insertPy_length _ none M (by omega)
        rw [hlen3]
        have e1 : M.length + 1 - 2 = M.length - 1 := by omega
        rw [e1, insertPy_getElem?_self _ none _ (by omega)]
        simp [hcf]
    · rw [if_neg hcf, if_neg hc4]
      refine ⟨iff_of_false ?_ hc4, iff_of_false ?_ hcf⟩ <;>
        · rw [hMdef]
          exact map_some_getElem?_ne _ _

/-- C10: for `1 ≤ current ≤ final`, `_get_displayed_page_numbers` returns
`[1, ..., final]` when `final ≤ 5`; otherwise it returns a strictly increasing
selection of page numbers from `1..final` that contains `1`, `current` and
`final`, with a `None` break marker at position 1 (right after the first
element) exactly when `current > 4`, and a `None` break marker at position
`length - 2` (right before the last element) exactly when `current < final - 3`. -/
theorem C10_displayed_page_numbers (current final : Nat)
    (h1 : 1 ≤ current) (h2 : current ≤ final) :
    (final ≤ 5 →
      _get_displayed_page_numbers current final = (List.range' 1 final).map some) ∧
    (5 < final →
      List.Chain' (· < ·) ((_get_displayed_page_numbers current final).filterMap id) ∧
      (∀ x ∈ (_get_displayed_page_numbers current final).filterMap id,
        1 ≤ x ∧ x ≤ final) ∧
      1 ∈ (_get_displayed_page_numbers current final).filterMap id ∧
      current ∈ (_get_displayed_page_numbers current final).filterMap id ∧
      final ∈ (_get_displayed_page_numbers current final).filterMap id ∧
      ((_get_displayed_page_numbers current final)[1]? = some none ↔ 4 < current) ∧
      ((_get_displayed_page_numbers current final)[
          (_get_displayed_page_numbers current final).length - 2]? = some none ↔
        current < final - 3)) := by
  constructor
  · intro h5
    rw [_get_displayed_page_numbers, if_pos h5]
  · intro h5
    have hne : ¬ final ≤ 5 := by omega
    have hfm := gdpn_filterMap current final hne
    have hbrk := gdpn_break_positions current final h1 h2 h5
    refine ⟨?_, ?_, ?_, ?_, ?_, hbrk.1, hbrk.2⟩
    · rw [hfm]
      exact List.chain'_iff_pairwise.mpr (pairwise_sortedIncluded _ _)
    · rw [hfm]
      intro x hx
      have hmem := mem_sortedIncluded.mp hx
      exact ⟨hmem.1, hmem.2.1⟩
    · rw [hfm]
      exact one_mem_sortedIncluded (by omega)
    · rw [hfm]
      exact current_mem_sortedIncluded h1 h2
    · rw [hfm]
      exact final_mem_sortedIncluded (by omega)

/-- Witness for C10 at `current = 7`, `final = 20`. -/
theorem C10_displayed_page_numbers_witness :
    (1 ≤ 7 ∧ 7 ≤ 20) ∧
    ((20 ≤ 5 →
      _get_displayed_page_numbers 7 20 = (List.range' 1 20).map some) ∧
    (5 < 20 →
      List.Chain' (· < ·) ((_get_displayed_page_numbers 7 20).filterMap id) ∧
      (∀ x ∈ (_get_displayed_page_numbers 7 20).filterMap id, 1 ≤ x ∧ x ≤ 20) ∧
      1 ∈ (_get_displayed_page_numbers 7 20).filterMap id ∧
      7 ∈ (_get_displayed_page_numbers 7 20).filterMap id ∧
      20 ∈ (_get_displayed_page_numbers 7 20).filterMap id ∧
      ((_get_displayed_page_numbers 7 20)[1]? = some none ↔ 4 < 7) ∧
      ((_get_displayed_page_numbers 7 20)[
          (_get_displayed_page_numbers 7 20).length - 2]? = some none ↔
        7 < 20 - 3))) :=
  ⟨by decide, C10_displayed_page_numbers 7 20 (by decide) (by decide)⟩

/-- C8: the claim says `LimitOffsetAsyncPagination.get_limit` never raises
and falls back to `default_limit`; in fact, whenever `limit_query_param` is
truthy (its default is `"limit"`), the `with sync_to_async(contextlib.suppress)
(KeyError, ValueError)` statement raises `TypeError`, so `get_limit` raises
on every request.  The `_positive_int` half of the claim is correct: on a
parseable input it raises `ValueError` exactly for a negative result or a
zero result with `strict`, and applies the cutoff only when it is truthy. -/
theorem C8_get_limit_broken_positive_int_ok :
    (∀ (self : LimitOffsetPaginationState) (qp : List (String × String)),
      self.limit_query_param ≠ "" →
        get_limit self qp = Except.error PyErr.typeError) ∧
    (∀ (s : String) (n : Int) (strict : Bool) (cutoff : Option Int),
      pyInt s = some n → (n < 0 ∨ (n = 0 ∧ strict = true)) →
        _positive_int s strict cutoff = Except.error PyErr.valueError) ∧
    (∀ (s : String) (n : Int) (strict : Bool),
      pyInt s = some n → ¬ (n < 0 ∨ (n = 0 ∧ strict = true)) →
        _positive_int s strict none = Except.ok n) ∧
    (∀ (s : String) (n : Int) (strict : Bool) (c : Int),
      pyInt s = some n → ¬ (n < 0 ∨ (n = 0 ∧ strict = true)) →
        _positive_int s strict (some c) =
          Except.ok (if c ≠ 0 then min n c else n)) := by
  refine ⟨?_, ?_, ?_, ?_⟩
  · intro self qp h
    simp [get_limit, withEnterCoroutineSuppress, h]
  · intro s n strict cutoff hs hneg
    simp [_positive_int, hs, hneg]
  · intro s n strict hs hneg
    simp [_positive_int, hs, hneg]
  · intro s n strict c hs hneg
    simp only [_positive_int, hs, if_neg hneg]
    by_cases hc : c = 0 <;> simp [hc]

/-- Witness for C8 at concrete inputs. -/
theorem C8_get_limit_broken_positive_int_ok_witness :
    get_limit stdLimitOffset [("limit", "5")] = Except.error PyErr.typeError ∧
    _positive_int "-3" false none = Except.error PyErr.valueError ∧
    _positive_int "7" true none = Except.ok 7 ∧
    _positive_int "200" true (some 100) = Except.ok 100 :=
  ⟨C8_get_limit_broken_positive_int_ok.1 stdLimitOffset [("limit", "5")] (by decide),
   C8_get_limit_broken_positive_int_ok.2.1 "-3" (-3) false none (by decide) (by decide),
   C8_get_limit_broken_positive_int_ok.2.2.1 "7" 7 true (by decide) (by decide),
   C8_get_limit_broken_positive_int_ok.2.2.2 "200" 200 true 100 (by decide) (by decide)⟩

/-- C2: the claim says the async page-number pagination computes exactly what
the host framework's synchronous `PageNumberPagination` does.  In fact every
listed method raises `TypeError` on every input: `get_page_size` calls the
bound `super().get_page_size` with the extra positional argument `self`;
`get_next_link`/`get_previous_link` `await` the plain bool/int returned by
the synchronous `Page` methods; `paginate_queryset` starts by awaiting the
broken `get_page_size`.  The synchronous counterparts meanwhile return actual
values (evaluated on concrete inputs in the last conjuncts). -/
theorem C2_pagenumber_async_always_type_error :
    (∀ (self : PageNumberPaginationState) (request : Request),
      async_get_page_size self request = Except.error PyErr.typeError) ∧
    (∀ (self : PageNumberPaginationState) (page : DjangoPage) (url : String)
      (rqp : String → String → String → String),
      async_get_next_link self page url rqp = Except.error PyErr.typeError) ∧
    (∀ (self : PageNumberPaginationState) (page : DjangoPage) (url : String)
      (rqp : String → String → String → String) (rmq : String → String → String),
      async_get_previous_link self page url rqp rmq = Except.error PyErr.typeError) ∧
    (∀ (self : PageNumberPaginationState)
      (mkPaginator : List Int → Int → DjangoPaginator) (queryset : List Int)
      (request : Request),
      async_paginate_queryset self mkPaginator queryset request
        = Except.error PyErr.typeError) ∧
    drf_get_page_size stdPageNumber { query_params := [], absolute_uri := "u" }
      = some 3 ∧
    drf_get_next_link stdPageNumber
      { object_list := [1], number := 1, has_next := true, has_previous := false,
        next_page_number := 2, previous_page_number := 0 }
      "http://t/" (fun u k v => u ++ "?" ++ k ++ "=" ++ v)
      = some "http://t/?page=2" :=
  ⟨fun _ _ => rfl, fun _ _ _ _ => rfl, fun _ _ _ _ _ => rfl, fun _ _ _ _ => rfl,
   rfl, rfl⟩

/-- C3: the claim says cursor encoding round-trips and that undecodable
cursors raise `NotFound`.  In fact `encode_cursor` references the unbound
module name `parse` (and `b64encode`), and the `try` body of `decode_cursor`
references the unbound `b64decode`; `NameError` is not caught by
`except (TypeError, ValueError)`, so both methods raise `NameError` on every
cursor instead of encoding/decoding or raising `NotFound`. -/
theorem C3_cursor_encode_decode_name_error :
    ("parse" ∉ paginationsModuleNames ∧ "b64encode" ∉ paginationsModuleNames ∧
     "b64decode" ∉ paginationsModuleNames) ∧
    (∀ (self : CursorPaginationState) (base_url : String)
      (urle : List (String × String) → String) (b64e : String → String)
      (rqp : String → String → String → String) (cursor : CursorT),
      encode_cursor self base_url urle b64e rqp cursor
        = Except.error PyErr.nameError) ∧
    (∀ (self : CursorPaginationState) (qp : List (String × String))
      (b64d : String → Option String)
      (parseQs : String → List (String × String)) (encoded : String),
      lookupParam qp self.cursor_query_param = some encoded →
        decode_cursor self qp b64d parseQs = Except.error PyErr.nameError) ∧
    (∀ (self : CursorPaginationState) (qp : List (String × String))
      (b64d : String → Option String)
      (parseQs : String → List (String × String)),
      lookupParam qp self.cursor_query_param = none →
        decode_cursor self qp b64d parseQs = Except.ok none) := by
  refine ⟨by decide, ?_, ?_, ?_⟩
  · intro self base_url urle b64e rqp cursor
    unfold encode_cursor
    rw [if_neg (by decide)]
  · intro self qp b64d parseQs encoded h
    unfold decode_cursor
    rw [h]
    exact rfl
  · intro self qp b64d parseQs h
    unfold decode_cursor
    rw [h]

/-- Witness for C3 at concrete inputs. -/
theorem C3_cursor_encode_decode_name_error_witness :
    encode_cursor { cursor_query_param := "cursor", offset_cutoff := 1000 }
      "http://t/" (fun _ => "") (fun s => s) (fun u _ _ => u)
      { offset := PyOffset.int 123, reverse := false, position := some "p" }
      = Except.error PyErr.nameError ∧
    decode_cursor { cursor_query_param := "cursor", offset_cutoff := 1000 }
      [("cursor", "cD00ODY=")] (fun _ => none) (fun _ => [])
      = Except.error PyErr.nameError ∧
    decode_cursor { cursor_query_param := "cursor", offset_cutoff := 1000 }
      [] (fun _ => none) (fun _ => []) = Except.ok none :=
  ⟨C3_cursor_encode_decode_name_error.2.1 _ "http://t/" (fun _ => "") (fun s => s)
      (fun u _ _ => u) _,
   C3_cursor_encode_decode_name_error.2.2.1 _ [("cursor", "cD00ODY=")]
      (fun _ => none) (fun _ => []) "cD00ODY=" rfl,
   C3_cursor_encode_decode_name_error.2.2.2 _ [] (fun _ => none) (fun _ => []) rfl⟩

/-- C9: the claim says `partial_update` performs `update` with `partial=True`
and that the method it delegates to is defined.  In fact it delegates to
`self.aupdate`, which no class in the view hierarchy defines (the only
`aupdate` in the repository is a serializer method), so a PATCH raises
`AttributeError`; the attribute `update` that the host framework's
`partial_update` would use is defined. -/
theorem C9_partial_update_attribute_error :
    ∀ hostMethods : List String, "aupdate" ∉ hostMethods →
      mixin_partial_update (updateAPIView_attrs hostMethods)
        = Except.error PyErr.attributeError ∧
      drf_partial_update (updateAPIView_attrs hostMethods) = Except.ok "update" := by
  intro hostMethods h
  constructor
  · unfold mixin_partial_update resolveAttr
    rw [if_neg]
    intro hmem
    rw [updateAPIView_attrs] at hmem
    simp only [List.mem_append] at hmem
    rcases hmem with ((hm | hm) | hm) | hm
    · revert hm
      decide
    · revert hm
      decide
    · revert hm
      decide
    · exact h hm
  · unfold drf_partial_update resolveAttr
    rw [if_pos]
    rw [updateAPIView_attrs]
    simp only [List.mem_append]
    left
    left
    right
    decide

/-- Witness for C9 with a concrete list of host-framework view methods. -/
theorem C9_partial_update_attribute_error_witness :
    mixin_partial_update (updateAPIView_attrs ["dispatch", "initial", "options",
      "http_method_not_allowed", "check_permissions"])
      = Except.error PyErr.attributeError ∧
    drf_partial_update (updateAPIView_attrs ["dispatch", "initial", "options",
      "http_method_not_allowed", "check_permissions"]) = Except.ok "update" :=
  C9_partial_update_attribute_error
    ["dispatch", "initial", "options", "http_method_not_allowed",
     "check_permissions"] (by decide)

/-- C6: `ViewSet.view_is_async` is true iff some non-dunder callable
class-body attribute is a coroutine function (using that Python name
mangling guarantees a class-body name starting with `__` also ends with
`__`, and that every coroutine function is callable), and `as_view` returns
the coroutine-based view exactly when `view_is_async` holds. -/
theorem C6_view_is_async_as_view :
    ∀ (clsDict : List ClassAttr) (clsAttrNames http_method_names : List String)
      (actions : List (String × String)) (initkwargs : List String),
      (∀ a ∈ clsDict, pyStartsWith a.name "__" = true → pyEndsWith a.name "__" = true) →
      (∀ a ∈ clsDict, a.isCoroutineFn = true → a.isCallable = true) →
      ((view_is_async clsDict = true ↔
        ∃ a ∈ clsDict, isDunder a.name = false ∧ a.isCallable = true ∧
          a.isCoroutineFn = true) ∧
       (∀ k, as_view clsDict clsAttrNames http_method_names actions initkwargs
          = Except.ok k →
          (k = ViewKind.asyncView ↔ view_is_async clsDict = true))) := by
  intro clsDict clsAttrNames http_method_names actions initkwargs hmangle hcor
  constructor
  · rw [view_is_async, List.any_eq_true]
    constructor
    · rintro ⟨a, ha, hacor⟩
      rw [List.mem_filter] at ha
      obtain ⟨hmem, hfilt⟩ := ha
      rw [Bool.and_eq_true, Bool.not_eq_true'] at hfilt
      refine ⟨a, hmem, ?_, hfilt.1, hacor⟩
      rw [isDunder, Bool.and_eq_false_iff]
      left
      exact hfilt.2
    · rintro ⟨a, hmem, hnd, hcall, hacor⟩
      refine ⟨a, ?_, hacor⟩
      rw [List.mem_filter, Bool.and_eq_true, Bool.not_eq_true']
      refine ⟨hmem, hcall, ?_⟩
      by_contra hstart
      rw [Bool.not_eq_false] at hstart
      rw [isDunder, hstart, hmangle a hmem hstart] at hnd
      simp at hnd
  · intro k hk
    rw [as_view] at hk
    by_cases h1 : actions.isEmpty
    · rw [if_pos h1] at hk
      cases hk
    · rw [if_neg h1] at hk
      by_cases h2 : initkwargs.any (fun k => decide (k ∈ http_method_names))
      · rw [if_pos h2] at hk
        cases hk
      · rw [if_neg h2] at hk
        by_cases h3 : initkwargs.any (fun k => ! decide (k ∈ clsAttrNames))
        · rw [if_pos h3] at hk
          cases hk
        · rw [if_neg h3] at hk
          by_cases h4 : "name" ∈ initkwargs ∧ "suffix" ∈ initkwargs
          · rw [if_pos h4] at hk
            cases hk
          · rw [if_neg h4] at hk
            injection hk with hk
            subst hk
            by_cases hv : view_is_async clsDict = true
            · simp [hv]
            · rw [Bool.not_eq_true] at hv
              simp [hv]

/-- Witness for C6 on a concrete class dictionary with one coroutine action
and one dunder method. -/
theorem C6_view_is_async_as_view_witness :
    (view_is_async [⟨"list", true, true⟩, ⟨"__init__", true, false⟩] = true ↔
      ∃ a ∈ [ClassAttr.mk "list" true true, ClassAttr.mk "__init__" true false],
        isDunder a.name = false ∧ a.isCallable = true ∧ a.isCoroutineFn = true) ∧
    (∀ k, as_view [⟨"list", true, true⟩, ⟨"__init__", true, false⟩]
        ["queryset", "serializer_class"] ["get", "post"] [("get", "list")] []
        = Except.ok k →
        (k = ViewKind.asyncView ↔
          view_is_async [⟨"list", true, true⟩, ⟨"__init__", true, false⟩] = true)) :=
  C6_view_is_async_as_view
    [⟨"list", true, true⟩, ⟨"__init__", true, false⟩]
    ["queryset", "serializer_class"] ["get", "post"] [("get", "list")] []
    (by decide) (by decide)

theorem adata_async_target_diverges {V : Type} (syncValue : SerializerClass → V)
    (c g : SerializerClass) (hg : grandparent c = some g)
    (ha : getattrWrapped g = some ResolvedAttr.asyncRoutingAttr) :
    ∀ fuel, adata syncValue fuel c = none := by
  intro fuel
  induction fuel with
  | zero => rfl
  | succ n ih =>
    simp only [adata, hg, ha]
    exact ih

/-- C4 (counterexample): the claim quantifies over every
`ModelSerializerAsync` instance, but for an instance of a second-level
subclass (`class S(ModelSerializerAsync)`, `class T(S)`),
`type(self).__base__.__base__` is `ModelSerializerAsync` itself, so the
wrappers re-enter their own routing property and recurse forever
(`RecursionError`, modelled by `none` at every fuel — shown here at fuel
1000), while the synchronous `ModelSerializer` attribute on the same state
returns a value. -/
theorem C4_wrappers_counterexample :
    adata (fun _ => (0 : Nat)) 1000
        (SerializerClass.sub (SerializerClass.sub SerializerClass.modelSerializerAsync))
      = none ∧
    syncAttrValue (fun _ => (0 : Nat)) SerializerClass.modelSerializer = some 0 :=
  ⟨adata_async_target_diverges (fun _ => (0 : Nat))
      (SerializerClass.sub (SerializerClass.sub SerializerClass.modelSerializerAsync))
      SerializerClass.modelSerializerAsync rfl rfl 1000,
   rfl⟩

/-- C4 (amended): for every instance whose class is `ModelSerializerAsync`
itself or a direct subclass of it (so `type(self).__base__.__base__` is the
synchronous `ModelSerializer` or `Serializer`), the wrappers
`adata`/`aerrors`/`avalidated_data`/`ais_valid` — and the synchronous
properties routed through `asyncio.run` — return exactly the value of the
synchronous base-class attribute (`ModelSerializer`'s own
`data`/`errors`/`validated_data`/`is_valid`) on the same state. -/
theorem C4_wrappers_delegate_to_sync {V : Type} (syncValue : SerializerClass → V)
    (fuel : Nat) (c : SerializerClass)
    (hx : extendsAsync c = true) (hd : subDepth c ≤ 1) (hf : 1 ≤ fuel) :
    adata syncValue fuel c
      = syncAttrValue syncValue SerializerClass.modelSerializer := by
  obtain ⟨n, rfl⟩ : ∃ n, fuel = n + 1 := ⟨fuel - 1, by omega⟩
  cases c with
  | baseSerializer => simp [extendsAsync] at hx
  | serializer => simp [extendsAsync] at hx
  | modelSerializer => simp [extendsAsync] at hx
  | modelSerializerAsync => rfl
  | sub p =>
    have hp : p = SerializerClass.modelSerializerAsync := by
      cases p with
      | baseSerializer => simp [extendsAsync] at hx
      | serializer => simp [extendsAsync] at hx
      | modelSerializer => simp [extendsAsync] at hx
      | modelSerializerAsync => rfl
      | sub q =>
        simp [subDepth] at hd
    subst hp
    rfl

/-- Witness for the amended C4 at a direct subclass with fuel 3. -/
theorem C4_wrappers_delegate_to_sync_witness :
    adata (fun _ => (7 : Nat)) 3 (SerializerClass.sub SerializerClass.modelSerializerAsync)
      = syncAttrValue (fun _ => (7 : Nat)) SerializerClass.modelSerializer :=
  C4_wrappers_delegate_to_sync (fun _ => 7) 3
    (SerializerClass.sub SerializerClass.modelSerializerAsync)
    (by decide) (by decide) (by decide)

theorem mem_keys_filter_truthy (l : List (String × JVal)) (k : String) :
    k ∈ keysOf (l.filter fun p => JVal.truthy p.2) ↔
      ∃ v, (k, v) ∈ l ∧ JVal.truthy v := by
  simp only [keysOf, List.mem_map, List.mem_filter]
  constructor
  · rintro ⟨⟨a, b⟩, ⟨hm, ht⟩, rfl⟩
    exact ⟨b, hm, ht⟩
  · rintro ⟨v, hm, ht⟩
    exact ⟨(k, v), ⟨hm, ht⟩, rfl⟩

theorem attributesRepr_ok (decl : List String) (attrs : List (String × JVal))
    (h : ∀ n ∈ decl, (lookupKey attrs n).isSome) :
    ∃ l, attributesRepr decl attrs = Except.ok l ∧ keysOf l = decl := by
  induction decl with
  | nil => exact ⟨[], rfl, rfl⟩
  | cons n rest ih =>
    have hn := h n (List.mem_cons_self n rest)
    obtain ⟨v, hv⟩ : ∃ v, lookupKey attrs n = some v := by
      cases hl : lookupKey attrs n with
      | none => rw [hl] at hn; simp at hn
      | some v => exact ⟨v, rfl⟩
    obtain ⟨l, hl, hk⟩ := ih (fun m hm => h m (List.mem_cons_of_mem _ hm))
    refine ⟨(n, v) :: l, ?_, ?_⟩
    · rw [attributesRepr, hv, hl]
    · simp only [keysOf, List.map_cons] at hk ⊢
      rw [hk]

theorem attrsBranch_ok (decl : List String) (attrs : List (String × JVal))
    (l : List (String × JVal)) (hl : attributesRepr decl attrs = Except.ok l) :
    (if decl.isEmpty then Except.ok [] else attributesRepr decl attrs)
      = Except.ok l := by
  by_cases he : decl.isEmpty
  · rw [if_pos he]
    rw [List.isEmpty_iff.mp he] at hl
    exact hl
  · rw [if_neg he]
    exact hl

theorem jsonapi_rels_type_error (decl : SerializerDecl) (inst : PyInstance)
    (ctx : SerializerCtx) (hne : decl.declaredRels ≠ [])
    (hrels : ∀ n ∈ decl.declaredRels, (lookupKey inst.rels n).isSome)
    (hattrs : ∀ n ∈ decl.declaredAttrs, (lookupKey inst.attrs n).isSome) :
    jsonapi_to_representation decl inst ctx = Except.error PyErr.typeError := by
  obtain ⟨l, hl, hkeys⟩ := attributesRepr_ok decl.declaredAttrs inst.attrs hattrs
  have hbranch := attrsBranch_ok decl.declaredAttrs inst.attrs l hl
  have hrempty : decl.declaredRels.isEmpty = false := by
    cases h : decl.declaredRels with
    | nil => exact absurd h hne
    | cons a t => rfl
  have hall : decl.declaredRels.all (fun n => (lookupKey inst.rels n).isSome) = true :=
    List.all_eq_true.mpr (fun n hn => hrels n hn)
  have hrr : relationshipsRepr decl.declaredRels inst.rels
      = Except.error PyErr.typeError := by
    unfold relationshipsRepr
    rw [if_neg (not_not_intro hall)]
    cases h : decl.declaredRels with
    | nil => exact absurd h hne
    | cons a t => rfl
  simp only [jsonapi_to_representation, hbranch, hrempty, Bool.false_eq_true,
    if_false, hrr]

theorem jsonapi_single_ok (decl : SerializerDecl) (inst : PyInstance)
    (ctx : SerializerCtx) (hrels : decl.declaredRels = [])
    (hattrs : ∀ n ∈ decl.declaredAttrs, (lookupKey inst.attrs n).isSome) :
    ∃ d : List (String × JVal),
      jsonapi_to_representation decl inst ctx
        = Except.ok (JVal.obj [("data", JVal.obj d), ("included", JVal.arr [])]) ∧
      ("type" ∈ keysOf d ↔ get_type_from_model inst.className ≠ "") ∧
      ("id" ∈ keysOf d ↔ inst.id ≠ 0) ∧
      ("attributes" ∈ keysOf d ↔ decl.declaredAttrs ≠ []) ∧
      "relationships" ∉ keysOf d ∧
      ("links" ∈ keysOf d ↔ ctx.is_included_disabled = false) := by
  obtain ⟨l, hl, hkeys⟩ := attributesRepr_ok decl.declaredAttrs inst.attrs hattrs
  have hbranch := attrsBranch_ok decl.declaredAttrs inst.attrs l hl
  have hlne : l = [] ↔ decl.declaredAttrs = [] := by
    rw [← hkeys]
    cases l <;> simp [keysOf]
  have h_t : "type" ∈ keysOf (([("type", JVal.s (get_type_from_model inst.className)),
        ("id", JVal.i inst.id), ("attributes", JVal.obj l),
        ("relationships", JVal.obj [])]).filter (fun p => JVal.truthy p.2)) ↔
      get_type_from_model inst.className ≠ "" := by
    rw [mem_keys_filter_truthy]
    simp [JVal.truthy, bne_iff_ne]
  have h_id : "id" ∈ keysOf (([("type", JVal.s (get_type_from_model inst.className)),
        ("id", JVal.i inst.id), ("attributes", JVal.obj l),
        ("relationships", JVal.obj [])]).filter (fun p => JVal.truthy p.2)) ↔
      inst.id ≠ 0 := by
    rw [mem_keys_filter_truthy]
    simp [JVal.truthy, bne_iff_ne]
  have h_at : "attributes" ∈ keysOf (([("type", JVal.s (get_type_from_model inst.className)),
        ("id", JVal.i inst.id), ("attributes", JVal.obj l),
        ("relationships", JVal.obj [])]).filter (fun p => JVal.truthy p.2)) ↔
      decl.declaredAttrs ≠ [] := by
    rw [mem_keys_filter_truthy]
    have hstep : (∃ v, ("attributes", v) ∈
        [("type", JVal.s (get_type_from_model inst.className)),
         ("id", JVal.i inst.id), ("attributes", JVal.obj l),
         ("relationships", JVal.obj [])] ∧ JVal.truthy v) ↔ l ≠ [] := by
      constructor
      · rintro ⟨v, hv, ht⟩
        simp only [List.mem_cons, List.not_mem_nil, or_false, Prod.mk.injEq] at hv
        have hv2 : v = JVal.obj l := by
          rcases hv with ⟨h1, _⟩ | ⟨h1, _⟩ | ⟨_, h2⟩ | ⟨h1, _⟩
          · exact absurd h1 (by simp)
          · exact absurd h1 (by simp)
          · exact h2
          · exact absurd h1 (by simp)
        subst hv2
        intro hl0
        subst hl0
        simp [JVal.truthy] at ht
      · intro hl0
        refine ⟨JVal.obj l, by simp, ?_⟩
        cases l with
        | nil => exact absurd rfl hl0
        | cons a t => rfl
    rw [hstep, not_iff_not]
    exact hlne
  have h_rl : "relationships" ∉ keysOf (([("type", JVal.s (get_type_from_model inst.className)),
        ("id", JVal.i inst.id), ("attributes", JVal.obj l),
        ("relationships", JVal.obj [])]).filter (fun p => JVal.truthy p.2)) := by
    rw [mem_keys_filter_truthy]
    simp [JVal.truthy]
  have h_lk : "links" ∉ keysOf (([("type", JVal.s (get_type_from_model inst.className)),
        ("id", JVal.i inst.id), ("attributes", JVal.obj l),
        ("relationships", JVal.obj [])]).filter (fun p => JVal.truthy p.2)) := by
    rw [mem_keys_filter_truthy]
    simp
  cases hdis : ctx.is_included_disabled with
  | true =>
    refine ⟨_, ?_, h_t, h_id, h_at, h_rl, ?_⟩
    · simp only [jsonapi_to_representation, hbranch, hrels, List.isEmpty_nil,
        if_true, hdis, objectIdRepr, List.cons_append, List.nil_append]
    · exact iff_of_false h_lk (by simp)
  | false =>
    refine ⟨(([("type", JVal.s (get_type_from_model inst.className)),
        ("id", JVal.i inst.id), ("attributes", JVal.obj l),
        ("relationships", JVal.obj [])]).filter (fun p => JVal.truthy p.2))
        ++ [("links", linksVal (detailUrl ctx.requestUrl (toString inst.id)))],
      ?_, ?_, ?_, ?_, ?_, ?_⟩
    · simp only [jsonapi_to_representation, hbranch, hrels, List.isEmpty_nil,
        if_true, hdis, Bool.false_eq_true, if_false, objectIdRepr,
        List.cons_append, List.nil_append]
    · rw [keysOf, List.map_append, List.mem_append, ← keysOf]
      simp only [keysOf, List.map_cons, List.map_nil, List.mem_cons,
        List.not_mem_nil, or_false]
      rw [← keysOf]
      constructor
      · rintro (h | h)
        · exact h_t.mp h
        · simp at h
      · intro h
        exact Or.inl (h_t.mpr h)
    · rw [keysOf, List.map_append, List.mem_append, ← keysOf]
      simp only [keysOf, List.map_cons, List.map_nil, List.mem_cons,
        List.not_mem_nil, or_false]
      rw [← keysOf]
      constructor
      · rintro (h | h)
        · exact h_id.mp h
        · simp at h
      · intro h
        exact Or.inl (h_id.mpr h)
    · rw [keysOf, List.map_append, List.mem_append, ← keysOf]
      simp only [keysOf, List.map_cons, List.map_nil, List.mem_cons,
        List.not_mem_nil, or_false]
      rw [← keysOf]
      constructor
      · rintro (h | h)
        · exact h_at.mp h
        · simp at h
      · intro h
        exact Or.inl (h_at.mpr h)
    · rw [keysOf, List.map_append, List.mem_append, ← keysOf]
      simp only [keysOf, List.map_cons, List.map_nil, List.mem_cons,
        List.not_mem_nil, or_false]
      rw [← keysOf]
      rintro (h | h)
      · exact h_rl h
      · simp at h
    · rw [keysOf, List.map_append, List.mem_append, ← keysOf]
      simp only [keysOf, List.map_cons, List.map_nil, List.mem_cons,
        List.not_mem_nil, or_false]
      exact iff_of_true (Or.inr trivial) (by trivial)

theorem jsonapi_many_ok (decl : SerializerDecl) (insts : List PyInstance)
    (ctx : SerializerCtx) (hrels : decl.declaredRels = [])
    (hattrs : ∀ inst ∈ insts, ∀ n ∈ decl.declaredAttrs,
      (lookupKey inst.attrs n).isSome) :
    ∃ l : List JVal,
      jsonapi_many_to_representation decl insts ctx
        = Except.ok (JVal.obj [("data", JVal.arr l), ("included", JVal.arr [])]) ∧
      l.length = insts.length := by
  suffices h : ∃ l, manyDataList decl ctx insts = Except.ok l ∧
      l.length = insts.length by
    obtain ⟨l, hl, hlen⟩ := h
    exact ⟨l, by simp only [jsonapi_many_to_representation, hl], hlen⟩
  induction insts with
  | nil => exact ⟨[], rfl, rfl⟩
  | cons inst rest ih =>
    obtain ⟨d, hd, _⟩ := jsonapi_single_ok decl inst
      { ctx with is_included_disabled := true } hrels
      (hattrs inst (List.mem_cons_self inst rest))
    obtain ⟨l, hl, hlen⟩ := ih (fun i hi => hattrs i (List.mem_cons_of_mem _ hi))
    refine ⟨JVal.obj d :: l, ?_, by simp [hlen]⟩
    simp only [manyDataList, hd, hl]
    rfl

/-- C1: the claim says `JSONAPISerializer.to_representation` always returns
a `{'data': ..., 'included': ...}` document.  In fact, whenever the
serializer declares at least one relationship field, the nested
`Relationships` rendering iterates the un-awaited coroutine
`JSONAPIObjectIdSerializer(..., many=True).data` and raises `TypeError`
(first conjunct).  When no relationships are declared, the document shape is
as traced from the code (second conjunct): exactly the top-level keys `data`
and `included`, with `data` holding `type` iff the derived type string is
truthy, `id` iff the id is truthy (so `id = 0` is dropped by the truthiness
filter, against the claim), `attributes` iff declared non-empty, never
`relationships` (the empty dict is filtered), and `links` iff included
rendering is enabled.  The many serializer then returns
`{'data': [per-object documents], 'included': []}` (third conjunct). -/
theorem C1_jsonapi_document_shape :
    (∀ (decl : SerializerDecl) (inst : PyInstance) (ctx : SerializerCtx),
      decl.declaredRels ≠ [] →
      (∀ n ∈ decl.declaredRels, (lookupKey inst.rels n).isSome) →
      (∀ n ∈ decl.declaredAttrs, (lookupKey inst.attrs n).isSome) →
      jsonapi_to_representation decl inst ctx = Except.error PyErr.typeError) ∧
    (∀ (decl : SerializerDecl) (inst : PyInstance) (ctx : SerializerCtx),
      decl.declaredRels = [] →
      (∀ n ∈ decl.declaredAttrs, (lookupKey inst.attrs n).isSome) →
      ∃ d : List (String × JVal),
        jsonapi_to_representation decl inst ctx
          = Except.ok (JVal.obj [("data", JVal.obj d), ("included", JVal.arr [])]) ∧
        ("type" ∈ keysOf d ↔ get_type_from_model inst.className ≠ "") ∧
        ("id" ∈ keysOf d ↔ inst.id ≠ 0) ∧
        ("attributes" ∈ keysOf d ↔ decl.declaredAttrs ≠ []) ∧
        "relationships" ∉ keysOf d ∧
        ("links" ∈ keysOf d ↔ ctx.is_included_disabled = false)) ∧
    (∀ (decl : SerializerDecl) (insts : List PyInstance) (ctx : SerializerCtx),
      decl.declaredRels = [] →
      (∀ inst ∈ insts, ∀ n ∈ decl.declaredAttrs, (lookupKey inst.attrs n).isSome) →
      ∃ l : List JVal,
        jsonapi_many_to_representation decl insts ctx
          = Except.ok (JVal.obj [("data", JVal.arr l), ("included", JVal.arr [])]) ∧
        l.length = insts.length) :=
  ⟨jsonapi_rels_type_error, jsonapi_single_ok, jsonapi_many_ok⟩

/-- Witness for C1 at concrete serializers: one declaring a relationship
(raising `TypeError`), one attribute-only (returning the document), and the
many serializer over two instances. -/
theorem C1_jsonapi_document_shape_witness :
    jsonapi_to_representation { declaredAttrs := [], declaredRels := ["foreign_key"] }
      { className := "Test", id := 1, attrs := [],
        rels := [("foreign_key", RelVal.toOne none)] }
      { requestUrl := none, is_included_disabled := false }
      = Except.error PyErr.typeError ∧
    (∃ d : List (String × JVal),
      jsonapi_to_representation { declaredAttrs := ["text"], declaredRels := [] }
        { className := "Test", id := 1, attrs := [("text", JVal.s "hi")], rels := [] }
        { requestUrl := some "http://t/api/test/", is_included_disabled := false }
        = Except.ok (JVal.obj [("data", JVal.obj d), ("included", JVal.arr [])]) ∧
      ("type" ∈ keysOf d ↔ get_type_from_model "Test" ≠ "") ∧
      ("id" ∈ keysOf d ↔ (1 : Int) ≠ 0) ∧
      ("attributes" ∈ keysOf d ↔ (["text"] : List String) ≠ []) ∧
      "relationships" ∉ keysOf d ∧
      ("links" ∈ keysOf d ↔ false = false)) ∧
    (∃ l : List JVal,
      jsonapi_many_to_representation { declaredAttrs := ["text"], declaredRels := [] }
        [{ className := "Test", id := 1, attrs := [("text", JVal.s "a")], rels := [] },
         { className := "Test", id := 2, attrs := [("text", JVal.s "b")], rels := [] }]
        { requestUrl := none, is_included_disabled := false }
        = Except.ok (JVal.obj [("data", JVal.arr l), ("included", JVal.arr [])]) ∧
      l.length = 2) :=
  ⟨C1_jsonapi_document_shape.1 _ _ _ (by decide) (by decide) (by decide),
   C1_jsonapi_document_shape.2.1 _ _ _ rfl (by decide),
   C1_jsonapi_document_shape.2.2 _ _ _ rfl (by decide)⟩

/-! ### Lookup lemmas for the create/acreate comparison -/

theorem lookupKey_cons_of_pos {β : Type} (a : String × β) (t : List (String × β))
    (k : String) (h : a.1 = k) : lookupKey (a :: t) k = some a.2 := by
  unfold lookupKey
  rw [List.find?_cons_of_pos _ (by simpa using h)]
  rfl

theorem lookupKey_cons_of_neg {β : Type} (a : String × β) (t : List (String × β))
    (k : String) (h : ¬ a.1 = k) : lookupKey (a :: t) k = lookupKey t k := by
  unfold lookupKey
  rw [List.find?_cons_of_neg _ (by simpa using h)]

theorem lookupKey_append {β : Type} (l1 l2 : List (String × β)) (k : String) :
    lookupKey (l1 ++ l2) k =
      match lookupKey l1 k with
      | some v => some v
      | none => lookupKey l2 k := by
  unfold lookupKey
  rw [List.find?_append]
  cases h : List.find? (fun p => decide (p.1 = k)) l1 <;> simp [h, Option.or]

theorem lookupKey_filter_key {β : Type} (l : List (String × β)) (q : String → Bool)
    (k : String) :
    lookupKey (l.filter (fun p => q p.1)) k =
      if q k then lookupKey l k else none := by
  induction l with
  | nil => by_cases hq : q k <;> simp [lookupKey, hq]
  | cons a t ih =>
    by_cases hak : a.1 = k
    · by_cases hq : q k
      · have hpa : q a.1 = true := by
          rw [hak]
          exact hq
        rw [if_pos hq]
        rw [List.filter_cons_of_pos (by simpa using hpa)]
        rw [lookupKey_cons_of_pos _ _ _ hak, lookupKey_cons_of_pos _ _ _ hak]
      · have hpa : ¬ q a.1 = true := by
          rw [hak]
          exact hq
        rw [if_neg hq]
        rw [List.filter_cons_of_neg (by simpa using hpa)]
        rw [ih, if_neg hq]
    · by_cases hq : q a.1
      · rw [List.filter_cons_of_pos (by simpa using hq)]
        rw [lookupKey_cons_of_neg _ _ _ hak, ih]
        by_cases hqk : q k
        · rw [if_pos hqk, if_pos hqk, lookupKey_cons_of_neg _ _ _ hak]
        · rw [if_neg hqk, if_neg hqk]
      · rw [List.filter_cons_of_neg (by simpa using hq)]
        rw [ih]
        by_cases hqk : q k
        · rw [if_pos hqk, if_pos hqk, lookupKey_cons_of_neg _ _ _ hak]
        · rw [if_neg hqk, if_neg hqk]

theorem lookupKey_eq_none {β : Type} (l : List (String × β)) (k : String)
    (h : ∀ p ∈ l, p.1 ≠ k) : lookupKey l k = none := by
  unfold lookupKey
  rw [List.find?_eq_none.mpr (by intro x hx; simpa using h x hx)]
  rfl

theorem lookupKey_isSome_of_mem {β : Type} {l : List (String × β)} {k : String}
    {v : β} (h : (k, v) ∈ l) : (lookupKey l k).isSome := by
  induction l with
  | nil => cases h
  | cons a t ih =>
    by_cases hk : a.1 = k
    · rw [lookupKey_cons_of_pos _ _ _ hk]
      rfl
    · rw [lookupKey_cons_of_neg _ _ _ hk]
      rcases List.mem_cons.mp h with h | h
      · exact absurd (by rw [← h]) hk
      · exact ih h

theorem lookupKey_const {β : Type} (l : List (String × β)) (k : String) (c : β)
    (hmem : k ∈ keysOf l) (hall : ∀ p ∈ l, p.2 = c) : lookupKey l k = some c := by
  induction l with
  | nil => cases hmem
  | cons a t ih =>
    by_cases hk : a.1 = k
    · rw [lookupKey_cons_of_pos _ _ _ hk, hall a (List.mem_cons_self a t)]
    · have hmem2 : k ∈ keysOf t := by
        simp only [keysOf, List.map_cons, List.mem_cons] at hmem
        rcases hmem with h | h
        · exact absurd h.symm hk
        · exact h
      rw [lookupKey_cons_of_neg _ _ _ hk]
      exact ih hmem2 (fun p hp => hall p (List.mem_cons_of_mem _ hp))

theorem mem_keysOf {β : Type} {l : List (String × β)} {k : String} :
    k ∈ keysOf l ↔ ∃ v, (k, v) ∈ l := by
  simp only [keysOf, List.mem_map]
  constructor
  · rintro ⟨⟨a, b⟩, hm, rfl⟩
    exact ⟨b, hm⟩
  · rintro ⟨v, hm⟩
    exact ⟨(k, v), hm, rfl⟩

/-! ### Evaluation lemmas for the create/acreate comparison -/

theorem asetAll_eval (d : List (String × VDVal)) (instId : Int) (ns : List String)
    (h : ∀ n ∈ ns, ∃ l, lookupKey d n = some (VDVal.relIds l)) :
    asetAll d instId ns = Except.ok
      ((ns.map (fun n => (relIdsOf d n).map (fun x => (n, (instId, x))))).flatten) := by
  induction ns with
  | nil => rfl
  | cons n rest ih =>
    obtain ⟨l, hl⟩ := h n (List.mem_cons_self n rest)
    rw [asetAll, hl]
    simp only [asetPairs, ih (fun m hm => h m (List.mem_cons_of_mem _ hm))]
    simp [relIdsOf, hl, List.flatten_cons]

theorem acreateM2Mgo_eval (d : List (String × VDVal)) (ns : List String)
    (h : ∀ n ∈ ns, isRelIdsEntry (lookupKey d n) = true) :
    acreateM2Mgo d ns = Except.ok
      ((ns.filter (fun n => (lookupKey d n).isSome)).map
        (fun n => (n, relIdsOf d n))) := by
  induction ns with
  | nil => rfl
  | cons n rest ih =>
    have hn := h n (List.mem_cons_self n rest)
    have hrec := ih (fun m hm => h m (List.mem_cons_of_mem _ hm))
    cases hl : lookupKey d n with
    | none =>
      rw [acreateM2Mgo, hl]
      rw [List.filter_cons_of_neg (by simp [hl])]
      exact hrec
    | some v =>
      cases v with
      | scalar w =>
        rw [hl] at hn
        simp [isRelIdsEntry] at hn
      | relId m =>
        rw [hl] at hn
        simp [isRelIdsEntry] at hn
      | relIds ids =>
        rw [acreateM2Mgo, hl]
        rw [hrec]
        rw [List.filter_cons_of_pos (by simp [hl])]
        simp [relIdsOf, hl]

theorem acreateConcreteCols_eval (keys : List String) (t0 d : List (String × VDVal))
    (fs : List (String × JVal))
    (h : ∀ f ∈ fs, f.1 ∈ keys ∧ lookupKey t0 f.1 = lookupKey d f.1 ∧
      isScalarEntry (lookupKey d f.1) = true) :
    acreateConcreteCols keys t0 fs = Except.ok (fs.map (fun f =>
      match lookupKey d f.1 with
      | some (VDVal.scalar v) => (f.1, v)
      | _ => (f.1, f.2))) := by
  induction fs with
  | nil => rfl
  | cons f rest ih =>
    obtain ⟨hk, ht, hs⟩ := h f (List.mem_cons_self f rest)
    obtain ⟨v, hv⟩ : ∃ v, lookupKey d f.1 = some (VDVal.scalar v) := by
      cases hl : lookupKey d f.1 with
      | none => rw [hl] at hs; simp [isScalarEntry] at hs
      | some w =>
        cases w with
        | scalar v => exact ⟨v, rfl⟩
        | relId m => rw [hl] at hs; simp [isScalarEntry] at hs
        | relIds l => rw [hl] at hs; simp [isScalarEntry] at hs
    rw [acreateConcreteCols, colVal, if_pos hk, ht, hv]
    simp only [vdToCol, ih (fun g hg => h g (List.mem_cons_of_mem _ hg))]
    simp [hv]

theorem acreateFkCols_eval (keys : List String) (t0 : List (String × VDVal))
    (ns : List String)
    (h : ∀ n ∈ ns, (n ++ "_id") ∈ keys ∧
      lookupKey t0 (n ++ "_id") = some (VDVal.scalar JVal.null)) :
    acreateFkCols keys t0 ns = Except.ok (ns.map (fun n => (n ++ "_id", JVal.null))) := by
  induction ns with
  | nil => rfl
  | cons n rest ih =>
    obtain ⟨hk, ht⟩ := h n (List.mem_cons_self n rest)
    rw [acreateFkCols, colVal, if_pos hk, ht]
    simp only [vdToCol, ih (fun m hm => h m (List.mem_cons_of_mem _ hm))]
    rw [List.map_cons]

theorem lookupKey_eq_some_mem {β : Type} {l : List (String × β)} {k : String}
    {v : β} (h : lookupKey l k = some v) : (k, v) ∈ l := by
  unfold lookupKey at h
  cases hf : l.find? (fun p => p.1 = k) with
  | none => rw [hf] at h; simp at h
  | some a =>
    rw [hf] at h
    simp only [Option.map_some', Option.some.injEq] at h
    have hm := List.mem_of_find?_eq_some hf
    have hp := List.find?_some hf
    simp only [decide_eq_true_eq] at hp
    rw [← h, ← hp]
    exact hm

theorem mem_m2mNamesOf_iff {meta : ModelMeta} {d : List (String × VDVal)}
    {n : String} : n ∈ m2mNamesOf meta d ↔
      n ∈ meta.toManyRels ∧ (lookupKey d n).isSome = true := by
  unfold m2mNamesOf
  rw [List.mem_filter]

theorem serializer_create_eval (meta : ModelMeta) (db : DBState)
    (d : List (String × VDVal))
    (hkeys : ∀ p ∈ d, p.1 ∈ keysOf meta.concreteFields ∨ p.1 ∈ meta.toManyRels)
    (hm2m : ∀ n ∈ meta.toManyRels, isRelIdsEntry (lookupKey d n) = true)
    (hc1 : ∀ n ∈ keysOf meta.concreteFields, n ∉ meta.toOneRels) :
    serializer_create meta db (PyInput.dict d) =
      Except.ok ((db.nextId, ormRow meta (restOf meta d)),
        { nextId := db.nextId + 1,
          rows := db.rows ++ [(db.nextId, ormRow meta (restOf meta d))],
          through := db.through ++ createPairs meta d db.nextId }) := by
  have hrest_keys : ∀ p ∈ restOf meta d, p.1 ∈ keysOf meta.concreteFields := by
    intro p hp
    unfold restOf at hp
    have hpd : p ∈ d := List.mem_of_mem_filter hp
    have hfilt := List.of_mem_filter hp
    rcases hkeys p hpd with hc | hm
    · exact hc
    · exfalso
      have hsome : (lookupKey d p.1).isSome = true :=
        lookupKey_isSome_of_mem (show (p.1, p.2) ∈ d from hpd)
      have hmm : p.1 ∈ m2mNamesOf meta d := mem_m2mNamesOf_iff.mpr ⟨hm, hsome⟩
      simp [hmm] at hfilt
  have hany1 : (restOf meta d).any (fun p =>
      ! (decide (p.1 ∈ keysOf meta.concreteFields)
        || decide (p.1 ∈ meta.toOneRels))) = false := by
    rw [List.any_eq_false]
    intro p hp
    simp [hrest_keys p hp]
  have hany2 : (restOf meta d).any
      (fun p => decide (p.1 ∈ meta.toOneRels)) = false := by
    rw [List.any_eq_false]
    intro p hp
    simp [hc1 p.1 (hrest_keys p hp)]
  have hdj : django_acreate meta db (restOf meta d) =
      Except.ok ((db.nextId, ormRow meta (restOf meta d)),
        { nextId := db.nextId + 1,
          rows := db.rows ++ [(db.nextId, ormRow meta (restOf meta d))],
          through := db.through }) := by
    unfold django_acreate
    rw [hany1, hany2]
    rfl
  have hasetHyp : ∀ n ∈ m2mNamesOf meta d,
      ∃ l, lookupKey d n = some (VDVal.relIds l) := by
    intro n hn
    obtain ⟨hmem, hsome⟩ := mem_m2mNamesOf_iff.mp hn
    have hr := hm2m n hmem
    cases hl : lookupKey d n with
    | none => rw [hl] at hsome; simp at hsome
    | some v =>
      cases v with
      | scalar w => rw [hl] at hr; simp [isRelIdsEntry] at hr
      | relId m => rw [hl] at hr; simp [isRelIdsEntry] at hr
      | relIds l => exact ⟨l, rfl⟩
  have haset := asetAll_eval d db.nextId (m2mNamesOf meta d) hasetHyp
  simp only [serializer_create, hdj, haset]
  rfl

theorem serializer_acreate_dict_eval (meta : ModelMeta) (db : DBState)
    (d : List (String × VDVal))
    (hconc : ∀ f ∈ meta.concreteFields, isScalarEntry (lookupKey d f.1) = true)
    (hkeys : ∀ p ∈ d, p.1 ∈ keysOf meta.concreteFields ∨ p.1 ∈ meta.toManyRels)
    (hm2m : ∀ n ∈ meta.toManyRels, isRelIdsEntry (lookupKey d n) = true)
    (hwfc : ∀ n ∈ keysOf meta.concreteFields,
      n ∉ meta.toManyRels ∧ n ∉ meta.toOneRels ∧ n ≠ "id")
    (hwfo : ∀ n ∈ meta.toOneRels, (n ++ "_id") ∉ keysOf meta.concreteFields ∧
      (n ++ "_id") ∉ meta.toOneRels ∧ (n ++ "_id") ∉ meta.toManyRels ∧
      (n ++ "_id") ≠ "id")
    (hno1 : ∀ n ∈ meta.toOneRels, lookupKey d n = none) :
    serializer_acreate meta db (PyInput.dict d) =
      Except.ok ([(db.nextId, ormRow meta (restOf meta d))],
        { nextId := db.nextId + 1,
          rows := db.rows ++ [(db.nextId, ormRow meta (restOf meta d))],
          through := db.through ++ createPairs meta d db.nextId }) := by
  have hM : acreateM2M meta d =
      Except.ok ((m2mNamesOf meta d).map (fun n => (n, relIdsOf d n))) := by
    unfold acreateM2M m2mNamesOf
    exact acreateM2Mgo_eval d meta.toManyRels hm2m
  have htrans_some : ∀ k v, k ∉ meta.toOneRels → k ∉ meta.toManyRels →
      lookupKey d k = some v →
      lookupKey (acreateTransform meta d) k = some v := by
    intro k v h1 h2 hv
    unfold acreateTransform
    rw [lookupKey_append]
    rw [lookupKey_filter_key d (fun x => ! decide (x ∈ meta.toOneRels)
      && ! decide (x ∈ meta.toManyRels)) k]
    rw [if_pos (by simp [h1, h2]), hv]
  have hfk_lookup : ∀ n ∈ meta.toOneRels,
      lookupKey (acreateTransform meta d) (n ++ "_id") =
        some (VDVal.scalar JVal.null) := by
    intro n hn
    obtain ⟨hnc, hno, hnm, hnid⟩ := hwfo n hn
    unfold acreateTransform
    rw [lookupKey_append]
    rw [lookupKey_filter_key d (fun x => ! decide (x ∈ meta.toOneRels)
      && ! decide (x ∈ meta.toManyRels)) (n ++ "_id")]
    have hdnone : lookupKey d (n ++ "_id") = none := by
      apply lookupKey_eq_none
      intro p hp hpk
      rcases hkeys p hp with hc | hm
      · rw [hpk] at hc; exact hnc hc
      · rw [hpk] at hm; exact hnm hm
    rw [if_pos (by simp [hno, hnm]), hdnone]
    apply lookupKey_const
    · rw [mem_keysOf]
      exact ⟨_, List.mem_map.mpr ⟨n, hn, rfl⟩⟩
    · intro p hp
      obtain ⟨m, hm, hpe⟩ := List.mem_map.mp hp
      rw [← hpe]
      simp [hno1 m hm]
  have hlookup_some : ∀ f ∈ meta.concreteFields,
      ∃ v, lookupKey d f.1 = some v := by
    intro f hf
    have hs := hconc f hf
    cases hl : lookupKey d f.1 with
    | none => rw [hl] at hs; simp [isScalarEntry] at hs
    | some v => exact ⟨v, rfl⟩
  have hconc_inkeys : ∀ f ∈ meta.concreteFields, f.1 ∈ acreateKeys meta d := by
    intro f hf
    have hfkC : f.1 ∈ keysOf meta.concreteFields := by
      rw [mem_keysOf]; exact ⟨f.2, hf⟩
    obtain ⟨hfm, hfo, hfid⟩ := hwfc f.1 hfkC
    obtain ⟨v, hv⟩ := hlookup_some f hf
    unfold acreateKeys
    rw [List.mem_filter]
    refine ⟨?_, by simp [hfid]⟩
    rw [mem_keysOf]
    exact ⟨v, lookupKey_eq_some_mem (htrans_some f.1 v hfo hfm hv)⟩
  have hfk_inkeys : ∀ n ∈ meta.toOneRels,
      (n ++ "_id") ∈ acreateKeys meta d := by
    intro n hn
    obtain ⟨hnc, hno, hnm, hnid⟩ := hwfo n hn
    unfold acreateKeys
    rw [List.mem_filter]
    refine ⟨?_, by simp [hnid]⟩
    rw [mem_keysOf]
    exact ⟨_, lookupKey_eq_some_mem (hfk_lookup n hn)⟩
  have hc : ∀ f ∈ meta.concreteFields, f.1 ∈ acreateKeys meta d ∧
      lookupKey (acreateTransform meta d) f.1 = lookupKey d f.1 ∧
      isScalarEntry (lookupKey d f.1) = true := by
    intro f hf
    have hfkC : f.1 ∈ keysOf meta.concreteFields := by
      rw [mem_keysOf]; exact ⟨f.2, hf⟩
    obtain ⟨hfm, hfo, hfid⟩ := hwfc f.1 hfkC
    obtain ⟨v, hv⟩ := hlookup_some f hf
    exact ⟨hconc_inkeys f hf,
      by rw [htrans_some f.1 v hfo hfm hv, hv], hconc f hf⟩
  have hfkh : ∀ n ∈ meta.toOneRels, (n ++ "_id") ∈ acreateKeys meta d ∧
      lookupKey (acreateTransform meta d) (n ++ "_id") =
        some (VDVal.scalar JVal.null) :=
    fun n hn => ⟨hfk_inkeys n hn, hfk_lookup n hn⟩
  have hrest_eq : ∀ f ∈ meta.concreteFields,
      lookupKey (restOf meta d) f.1 = lookupKey d f.1 := by
    intro f hf
    have hfkC : f.1 ∈ keysOf meta.concreteFields := by
      rw [mem_keysOf]; exact ⟨f.2, hf⟩
    have hfm := (hwfc f.1 hfkC).1
    unfold restOf
    rw [lookupKey_filter_key d (fun x => ! decide (x ∈ m2mNamesOf meta d)) f.1]
    rw [if_pos]
    simp only [Bool.not_eq_true', decide_eq_false_iff_not]
    exact fun hx => hfm (mem_m2mNamesOf_iff.mp hx).1
  have hrow : acreateRow meta (acreateKeys meta d) (acreateTransform meta d) =
      Except.ok (ormRow meta (restOf meta d)) := by
    simp only [acreateRow,
      acreateConcreteCols_eval (acreateKeys meta d) (acreateTransform meta d)
        d meta.concreteFields hc,
      acreateFkCols_eval (acreateKeys meta d) (acreateTransform meta d)
        meta.toOneRels hfkh]
    unfold ormRow
    have hmap : meta.concreteFields.map (fun f =>
        match lookupKey (restOf meta d) f.1 with
        | some (VDVal.scalar v) => (f.1, v)
        | _ => (f.1, f.2)) = meta.concreteFields.map (fun f =>
        match lookupKey d f.1 with
        | some (VDVal.scalar v) => (f.1, v)
        | _ => (f.1, f.2)) :=
      List.map_congr_left (fun f hf => by rw [hrest_eq f hf])
    rw [hmap]
  have hrows : acreateRows meta (acreateKeys meta d) db.nextId
      ([d].map (acreateTransform meta)) =
      Except.ok [(db.nextId, ormRow meta (restOf meta d))] := by
    simp only [List.map_cons, List.map_nil, acreateRows, hrow]
  simp only [serializer_acreate, hM, checkM2M, hrows]
  rw [List.map_map]
  rfl

/-- C5 counterexample: on a list `validated_data` of two dicts (concrete
model `TestModel`, a present `many_to_many` entry in each dict),
`ModelSerializerAsync.create` raises `TypeError` (the `**` unpacking of a
list) while `ModelSerializerAsync.acreate` succeeds, inserting two rows and
writing no many-to-many through rows at all — the two paths do not persist
the same rows, refuting the claim as stated. -/
theorem C5_acreate_create_counterexample :
    serializer_create c5meta c5db (PyInput.list [c5d, c5d]) =
      Except.error PyErr.typeError ∧
    serializer_acreate c5meta c5db (PyInput.list [c5d, c5d]) =
      Except.ok ([(5, [("text", JVal.s "a"), ("int", JVal.i 3),
          ("foreign_key_id", JVal.null)]),
        (6, [("text", JVal.s "a"), ("int", JVal.i 3),
          ("foreign_key_id", JVal.null)])],
        { nextId := 7,
          rows := [(5, [("text", JVal.s "a"), ("int", JVal.i 3),
              ("foreign_key_id", JVal.null)]),
            (6, [("text", JVal.s "a"), ("int", JVal.i 3),
              ("foreign_key_id", JVal.null)])],
          through := [] }) :=
  ⟨rfl, rfl⟩

/-- C5 (amended): on a single-dict `validated_data` whose entries are
scalar values of concrete fields plus id-lists for to-many relations (the
shape the serializer's validation accepts when no forward relation value is
supplied), and for a model whose field names are well-formed (concrete
names, relation names and the derived `_id` column names do not collide and
none is `id`), `acreate` persists exactly the row `create` persists, under
the same fresh id, with the identical many-to-many through rows, and
returns that same instance (as its one-element instance list). -/
theorem C5_acreate_matches_create (meta : ModelMeta) (db : DBState)
    (d : List (String × VDVal))
    (hconc : ∀ f ∈ meta.concreteFields, isScalarEntry (lookupKey d f.1) = true)
    (hkeys : ∀ p ∈ d, p.1 ∈ keysOf meta.concreteFields ∨ p.1 ∈ meta.toManyRels)
    (hm2m : ∀ n ∈ meta.toManyRels, isRelIdsEntry (lookupKey d n) = true)
    (hwfc : ∀ n ∈ keysOf meta.concreteFields,
      n ∉ meta.toManyRels ∧ n ∉ meta.toOneRels ∧ n ≠ "id")
    (hwfo : ∀ n ∈ meta.toOneRels, (n ++ "_id") ∉ keysOf meta.concreteFields ∧
      (n ++ "_id") ∉ meta.toOneRels ∧ (n ++ "_id") ∉ meta.toManyRels ∧
      (n ++ "_id") ≠ "id")
    (hno1 : ∀ n ∈ meta.toOneRels, lookupKey d n = none) :
    ∃ inst db2,
      serializer_create meta db (PyInput.dict d) = Except.ok (inst, db2) ∧
      serializer_acreate meta db (PyInput.dict d) = Except.ok ([inst], db2) := by
  exact ⟨(db.nextId, ormRow meta (restOf meta d)),
    { nextId := db.nextId + 1,
      rows := db.rows ++ [(db.nextId, ormRow meta (restOf meta d))],
      through := db.through ++ createPairs meta d db.nextId },
    serializer_create_eval meta db d hkeys hm2m
      (fun n hn => (hwfc n hn).2.1),
    serializer_acreate_dict_eval meta db d hconc hkeys hm2m hwfc hwfo hno1⟩

/-- Witness for the amended C5 theorem at the concrete model, database
state and single-dict input. -/
theorem C5_acreate_matches_create_witness :
    ∃ inst db2,
      serializer_create c5meta c5db (PyInput.dict c5d) =
        Except.ok (inst, db2) ∧
      serializer_acreate c5meta c5db (PyInput.dict c5d) =
        Except.ok ([inst], db2) :=
  C5_acreate_matches_create c5meta c5db c5d (by decide) (by decide)
    (by decide) (by decide) (by decide)
    (by intro n hn; simp only [c5meta] at hn; simp at hn; subst hn; rfl)

end Aiodrf
